import Mathlib

/-!
Verification development for the pinia-tera-json state synchronization plugin.

The definitions below are a shallow embedding of the TypeScript source
(src/unnamed/part_000).  Runtime JavaScript values handled by the codec are
modelled by the inductive type JSV; JavaScript objects are modelled as
insertion-ordered association lists (property assignment is modelled by
objSet, which overwrites in place or appends, exactly as a JS object does).
Map keys may be strings or numbers and are coerced to strings on
serialization, as in the source (obj[key] = ...).

Caveats of the embedding, noted where relevant:
- Set identity semantics: a JS Set deduplicates by SameValueZero (reference
  identity for objects).  Reference identity is not expressible in a purely
  structural value model, so decoded sets are modelled as ordered lists
  without deduplication.  Values produced by encoding a real JS Set never
  trigger deduplication on decode (primitive members of a real Set are
  pairwise distinct and survive encode/decode unchanged; object members are
  reference-distinct), so the model agrees with the source on all values
  that arise from real Sets.
- Cyclic values are not representable in an inductive type, so the
  try/catch fall-through of the codec (which only fires on traversal
  failure) has no reachable trigger in the model and is omitted.
- Decoding an actual Map or Set instance: Object.entries sees no own
  enumerable properties on these, so the source returns an empty object;
  the model mirrors this.
-/

/-!
State synchronization engine model.

The plugin class TeraFileSyncPlugin is embedded as explicit state passing
over PState.  JavaScript is single threaded: each async method runs its
synchronous sections atomically and can interleave with other tasks only at
awaits.  Accordingly every async operation is modelled as a function from a
pre-state and a host environment (the outcomes the host will supply to this
run) to a run record carrying the result, the post-state, the ordered list
of host calls made (events), and the list of plugin states observed at each
await point (suspensions), in order.  A concurrent call arriving mid-flight
is modelled by running the operation from a suspension state.

Modelling notes:
- vueInstance and its always-present tera property are collapsed into a
  single Option Tera (the source checks both and treats both the same way).
- btoa is modelled by btoaModel, an injective placeholder for base64; no
  claim depends on the concrete encoding.
- setProjectState("temp." ++ key, name) is modelled as persisting the entry
  into project.temp, the capability the source relies on to find the file
  again on later calls.
- uiProgress(false) in the finally block is modelled as resolving; a run on
  a Tera whose uiProgress is not a function throws synchronously both in the
  try block and again in the finally block, which rejects the returned
  promise: result none models a rejected save promise.
-/

inductive MKey where
  | kstr (s : String)
  | knum (n : Int)
deriving DecidableEq

inductive JSV where
  | jnull
  | jbool (b : Bool)
  | jnum (n : Int)
  | jstr (s : String)
  | jdate (t : Int)
  | jarr (xs : List JSV)
  | jobj (fs : List (String × JSV))
  | jmap (es : List (MKey × JSV))
  | jset (xs : List JSV)

/-- String coercion of a Map key, as performed by obj[key] assignment in JS. -/
def MKey.toStr : MKey → String
  | .kstr s => s
  | .knum n => toString n

/-- JS property assignment obj[k] = v on an insertion-ordered object. -/
def objSet (fs : List (String × JSV)) (k : String) (v : JSV) : List (String × JSV) :=
  if fs.any (fun p => p.1 == k) then
    fs.map (fun p => if p.1 == k then (k, v) else p)
  else fs ++ [(k, v)]

/-- Sequential property assignments of a list of entries into an object. -/
def objFold (acc : List (String × JSV)) (l : List (String × JSV)) : List (String × JSV) :=
  l.foldl (fun a p => objSet a p.1 p.2) acc

mutual
/-- Embedding of mapSetToObject (source lines 155-191): serializes Maps to
sentinel-tagged objects with string-coerced keys, Sets to sentinel-tagged
objects with an ordered values array, recurses through arrays and plain
objects, and passes scalars and Date instances through unchanged. -/
def mapSetToObject : JSV → JSV
  | .jnull => .jnull
  | .jbool b => .jbool b
  | .jnum n => .jnum n
  | .jstr s => .jstr s
  | .jdate t => .jdate t
  | .jarr xs => .jarr (mstoList xs)
  | .jobj fs => .jobj (objFold [] (mstoFields fs))
  | .jmap es => .jobj (objFold [("__isMap", .jbool true)] (mstoEntries es))
  | .jset xs => .jobj [("__isSet", .jbool true), ("values", .jarr (mstoList xs))]
def mstoList : List JSV → List JSV
  | [] => []
  | x :: xs => mapSetToObject x :: mstoList xs
def mstoFields : List (String × JSV) → List (String × JSV)
  | [] => []
  | (k, v) :: fs => (k, mapSetToObject v) :: mstoFields fs
def mstoEntries : List (MKey × JSV) → List (String × JSV)
  | [] => []
  | (k, v) :: es => (k.toStr, mapSetToObject v) :: mstoEntries es
end

/-- JS property read obj[k] (objects have unique keys, so first match). -/
def lookupField (fs : List (String × JSV)) (k : String) : Option JSV :=
  (fs.find? (fun p => p.1 == k)).map (fun p => p.2)

/-- Dispatch on a decoded object: the three branches of objectToMapSet for a
plain object input, checked in source order (sentinel field presence first).
The second argument is the object with every field value already decoded;
the set branch reads the decoded values field from it, which coincides with
the source decoding obj.values elementwise (decoding maps arrays to arrays
and nothing else to arrays), and the non-array fallback returns the original
object unchanged, mirroring the try/catch in the source. -/
def omsObj (orig conv : List (String × JSV)) : JSV :=
  if orig.any (fun p => p.1 == "__isMap") then
    .jmap ((conv.filter (fun p => p.1 != "__isMap")).map (fun p => (MKey.kstr p.1, p.2)))
  else if orig.any (fun p => p.1 == "__isSet") then
    match lookupField conv "values" with
    | some (.jarr ys) => .jset ys
    | _ => .jobj orig
  else .jobj (objFold [] conv)

mutual
/-- Embedding of objectToMapSet (source lines 198-233): restores Maps and
Sets from sentinel-tagged objects, recurses through arrays and plain
objects, and passes scalars and Date instances through unchanged. -/
def objectToMapSet : JSV → JSV
  | .jnull => .jnull
  | .jbool b => .jbool b
  | .jnum n => .jnum n
  | .jstr s => .jstr s
  | .jdate t => .jdate t
  | .jarr xs => .jarr (omsList xs)
  | .jobj fs => omsObj fs (omsFields fs)
  | .jmap _ => .jobj []
  | .jset _ => .jobj []
def omsList : List JSV → List JSV
  | [] => []
  | x :: xs => objectToMapSet x :: omsList xs
def omsFields : List (String × JSV) → List (String × JSV)
  | [] => []
  | (k, v) :: fs => (k, objectToMapSet v) :: omsFields fs
end

mutual
/-- Map-key string coercion applied recursively: the residue of a
serialize/deserialize round trip predicted by the specification. -/
def normKeys : JSV → JSV
  | .jnull => .jnull
  | .jbool b => .jbool b
  | .jnum n => .jnum n
  | .jstr s => .jstr s
  | .jdate t => .jdate t
  | .jarr xs => .jarr (nkList xs)
  | .jobj fs => .jobj (nkFields fs)
  | .jmap es => .jmap (nkEntries es)
  | .jset xs => .jset (nkList xs)
def nkList : List JSV → List JSV
  | [] => []
  | x :: xs => normKeys x :: nkList xs
def nkFields : List (String × JSV) → List (String × JSV)
  | [] => []
  | (k, v) :: fs => (k, normKeys v) :: nkFields fs
def nkEntries : List (MKey × JSV) → List (MKey × JSV)
  | [] => []
  | (k, v) :: es => (MKey.kstr k.toStr, normKeys v) :: nkEntries es
end

mutual
/-- Well-formedness of a runtime value: object keys are unique (a JS object
invariant) and avoid the sentinel field names, and Map keys string-coerce
injectively and never to the map sentinel name. -/
def goodB : JSV → Bool
  | .jnull => true
  | .jbool _ => true
  | .jnum _ => true
  | .jstr _ => true
  | .jdate _ => true
  | .jarr xs => goodList xs
  | .jset xs => goodList xs
  | .jobj fs => goodFields fs && decide (fs.map Prod.fst).Nodup
  | .jmap es => goodEntries es && decide (es.map (fun p => p.1.toStr)).Nodup
def goodList : List JSV → Bool
  | [] => true
  | x :: xs => goodB x && goodList xs
def goodFields : List (String × JSV) → Bool
  | [] => true
  | (k, v) :: fs => (k != "__isMap") && (k != "__isSet") && goodB v && goodFields fs
def goodEntries : List (MKey × JSV) → Bool
  | [] => true
  | (k, v) :: es => (k.toStr != "__isMap") && goodB v && goodEntries es
end

/-- Concrete nested value exercising Map, Set, Date, object and scalar
cases for the C1 witness. -/
def c1wv : JSV :=
  JSV.jmap [(MKey.knum 3, JSV.jset [JSV.jstr "a", JSV.jdate 5]),
            (MKey.kstr "k", JSV.jobj [("x", JSV.jnull)])]

inductive SaveStatus where
  | saved
  | unsaved
  | saving
deriving DecidableEq

/-- Values found in project.temp metadata: strings or (corrupt) numbers,
keeping the typeof string check and JS falsiness meaningful. -/
inductive TVal where
  | tstr (s : String)
  | tnum (n : Int)
deriving DecidableEq

structure Project where
  id : Option String
  temp : Option (List (String × TVal))
deriving DecidableEq

/-- The host binding: capability presence flags plus the project metadata
descriptor.  A missing capability models the corresponding property not
being a function. -/
structure Tera where
  hasGetUser : Bool
  hasGetProjectFileContents : Bool
  hasSetProjectFileContents : Bool
  hasUiProgress : Bool
  hasCreateProjectFile : Bool
  hasSetProjectState : Bool
  project : Option Project
deriving DecidableEq

structure Cfg where
  keyPref : String
  isSeparateStateForEachUser : Bool
  autoSaveIntervalMinutes : Nat
  showInitialAlert : Bool
  enableSaveHotkey : Bool
deriving DecidableEq

/-- Mutable instance state of TeraFileSyncPlugin (source lines 260-293).
syncStatusStore holds the backing Pinia store state when created (None
before createSyncStatusStore succeeds). -/
structure PState where
  cfg : Cfg
  inited : Bool
  teraReady : Bool
  vue : Option Tera
  userId : Option String
  saveInProgress : Bool
  saveStatus : SaveStatus
  hasShownInitialAlert : Bool
  syncStatusStore : Option SaveStatus
deriving DecidableEq

/-- Constructor state (source lines 278-294). -/
def initState (cfg : Cfg) : PState :=
  { cfg := cfg
    inited := false
    teraReady := false
    vue := none
    userId := none
    saveInProgress := false
    saveStatus := SaveStatus.saved
    hasShownInitialAlert := false
    syncStatusStore := none }

/-- Host calls made by the engine, in order. -/
inductive Ev where
  | status (st : SaveStatus)
  | uiProgress (shown : Bool)
  | getUser
  | createFile (name : String)
  | setPState (path : String) (value : String)
  | readFile (name : String)
  | writeFile (name : String) (content : JSV)

/-- Outcomes the host will supply to one operation run. -/
structure HostEnv where
  getUserId : Except String String
  nanoid : String
  readResult : Except String (Option JSV)
  writeOk : Bool
  uiShowOk : Bool
  piniaPresent : Bool

/-- Placeholder for base64 filename encoding (injective; the claims do not
depend on the concrete encoding). -/
def btoaModel (s : String) : String := s

/-- JS falsiness of the nullable userId cache (null and the empty string
are both falsy). -/
def optFalsy : Option String → Bool
  | none => true
  | some s => s == ""

/-- JS template-literal rendering of the nullable userId. -/
def optShow : Option String → String
  | none => "null"
  | some s => s

/-- JS truthiness and string test done on a temp entry. -/
def lookupTemp (temp : List (String × TVal)) (k : String) : Option TVal :=
  (temp.find? (fun q => q.1 == k)).map (fun q => q.2)

/-- Assignment into the temp mapping (JS object property write). -/
def setTempEntry (temp : List (String × TVal)) (k : String) (v : TVal) :
    List (String × TVal) :=
  if temp.any (fun q => q.1 == k) then
    temp.map (fun q => if q.1 == k then (k, v) else q)
  else temp ++ [(k, v)]

/-- Replace the project descriptor inside the state. -/
def setVueProject (s : PState) (p : Project) : PState :=
  match s.vue with
  | none => s
  | some t => { s with vue := some { t with project := some p } }

/-- Persist a temp entry into the state's project descriptor (the modelled
effect of the setProjectState host call). -/
def updateTempInState (s : PState) (k : String) (v : TVal) : PState :=
  match s.vue with
  | some t =>
    match t.project with
    | some p =>
      let p2 : Project := { p with temp := some (setTempEntry (p.temp.getD []) k v) }
      { s with vue := some { t with project := some p2 } }
    | none => s
  | none => s

/-- Embedding of updateSaveStatus (source lines 407-415): a no-op while the
sync status store has not been created, otherwise writes both the instance
field and the store state. -/
def updateSaveStatusE (s : PState) (st : SaveStatus) : PState × List Ev :=
  match s.syncStatusStore with
  | none => (s, [])
  | some _ => ({ s with saveStatus := st, syncStatusStore := some st }, [Ev.status st])

/-- Accessor getSaveStatus (source lines 852-854). -/
def getSaveStatus (s : PState) : SaveStatus := s.saveStatus

/-- The store-change subscription callback registered by
setupStateChangeTracking (source lines 686-690): marks the state Unsaved
unless a save is currently in flight. -/
def onStoreChange (s : PState) : PState × List Ev :=
  if s.saveStatus ≠ SaveStatus.saving then updateSaveStatusE s SaveStatus.unsaved
  else (s, [])

/-- Embedding of validateVueInstance (source lines 124-148). -/
def validateVueInstance : Option Tera → Except String Unit
  | none => Except.error "Vue instance is required"
  | some t =>
    if t.hasGetUser = false then Except.error "tera.getUser must be a function"
    else if t.hasGetProjectFileContents = false then
      Except.error "tera.getProjectFileContents must be a function"
    else if t.hasSetProjectFileContents = false then
      Except.error "tera.setProjectFileContents must be a function"
    else if t.hasUiProgress = false then
      Except.error "tera.uiProgress must be a function"
    else Except.ok ()

/-- Embedding of getStorageKey (source lines 423-438).  Performs the user
identity lookup only when per-user state is enabled, the cached userId is
falsy and a vue instance is bound; a lookup failure is rethrown. -/
def getStorageKey (s : PState) (env : HostEnv) :
    Except String String × PState × List Ev :=
  if s.cfg.isSeparateStateForEachUser then
    if optFalsy s.userId && s.vue.isSome then
      match env.getUserId with
      | Except.ok uid =>
        (Except.ok (s.cfg.keyPref ++ "-" ++ uid), { s with userId := some uid }, [Ev.getUser])
      | Except.error e => (Except.error e, s, [Ev.getUser])
    else
      (Except.ok (s.cfg.keyPref ++ "-" ++ optShow s.userId), s, [])
  else (Except.ok s.cfg.keyPref, s, [])

/-- Result of a getStorageFileName run. -/
structure NameRun where
  res : Except String String
  final : PState
  events : List Ev
  susp : List PState

/-- The file-provisioning branch of getStorageFileName (source lines
467-482): synthesizes a fresh file name, requires the createProjectFile and
setProjectState capabilities (their absence throws), creates the file and
persists the name into project.temp under the storage key. -/
def createStorageFile (s : PState) (t : Tera) (pid key : String)
    (evK : List Ev) (suspK : List PState) (env : HostEnv) : NameRun :=
  let name := "data-" ++ s.cfg.keyPref ++ "-" ++ env.nanoid ++ ".json"
  if t.hasCreateProjectFile = false then
    ⟨Except.error "createProjectFile function not available", s, evK, suspK⟩
  else
    if t.hasSetProjectState = false then
      ⟨Except.error "setProjectState function not available", s,
        evK ++ [Ev.createFile name], suspK ++ [s]⟩
    else
      ⟨Except.ok (pid ++ "/" ++ name),
        updateTempInState s key (TVal.tstr name),
        evK ++ [Ev.createFile name, Ev.setPState ("temp." ++ key) name],
        suspK ++ [s, s]⟩

/-- Embedding of getStorageFileName (source lines 446-490): requires the
project descriptor with an id, auto-creates the temp mapping, resolves the
storage key, reuses a truthy string entry, provisions a new file when the
entry is absent or falsy, and fails on a truthy non-string entry. -/
def getStorageFileName (s : PState) (env : HostEnv) : NameRun :=
  match s.vue with
  | none => ⟨Except.error "Missing vueInstance.tera.project", s, [], []⟩
  | some t =>
    match t.project with
    | none => ⟨Except.error "Missing vueInstance.tera.project", s, [], []⟩
    | some p =>
      let p1 : Project := { p with temp := some (p.temp.getD []) }
      let s1 := setVueProject s p1
      match p1.id with
      | none => ⟨Except.error "Missing vueInstance.tera.project.id", s1, [], []⟩
      | some pid =>
        if pid = "" then ⟨Except.error "Missing vueInstance.tera.project.id", s1, [], []⟩
        else
          match getStorageKey s1 env with
          | (Except.error e, s2, evK) =>
            ⟨Except.error e, s2, evK, if evK.isEmpty then [] else [s1]⟩
          | (Except.ok key, s2, evK) =>
            let suspK : List PState := if evK.isEmpty then [] else [s1]
            match lookupTemp (p.temp.getD []) key with
            | some (TVal.tstr name) =>
              if name = "" then createStorageFile s2 t pid key evK suspK env
              else ⟨Except.ok (pid ++ "/" ++ name), s2, evK, suspK⟩
            | some (TVal.tnum n) =>
              if n = 0 then createStorageFile s2 t pid key evK suspK env
              else ⟨Except.error ("fileStorageName is not a string: " ++ toString n),
                s2, evK, suspK⟩
            | none => createStorageFile s2 t pid key evK suspK env

/-- Substring check used by the not-found detection in loadStateFromFile. -/
def containsNotFound (msg : String) : Bool :=
  decide (List.IsInfix ("not found".toList) msg.toList)

/-- JS falsiness of a parsed JSON document, the test of
`if (!fileContent)` on the content read back from the file (source line
512): null, false, the number 0 and the empty string are falsy; every
array, object, Map, Set and Date is truthy.  (NaN has no representative
in the integer number model.) -/
def jsFalsy : JSV → Bool
  | JSV.jnull => true
  | JSV.jbool b => !b
  | JSV.jnum n => n == 0
  | JSV.jstr str => str == ""
  | JSV.jdate _ => false
  | JSV.jarr _ => false
  | JSV.jobj _ => false
  | JSV.jmap _ => false
  | JSV.jset _ => false

/-- Result of a loadStateFromFile run. -/
structure LoadRun where
  result : Option JSV
  final : PState
  events : List Ev

/-- The try block of loadStateFromFile (source lines 498-521): everything
that can throw.  Errors are values of the Except error constructor.  A
read that resolves with a falsy document (the `if (!fileContent)` check,
source line 512) returns null before the Saved status update, exactly
like a read that resolves with nothing. -/
def loadTry (s : PState) (env : HostEnv) : Except String (Option JSV) × PState × List Ev :=
  match getStorageFileName s env with
  | ⟨Except.error e, s1, evs, _⟩ => (Except.error e, s1, evs)
  | ⟨Except.ok fileName, s1, evs, _⟩ =>
    if fileName = "" then (Except.ok none, s1, evs)
    else
      match s1.vue with
      | none => (Except.error "Vue instance is null", s1, evs)
      | some _ =>
        match env.readResult with
        | Except.error msg => (Except.error msg, s1, evs ++ [Ev.readFile (btoaModel fileName)])
        | Except.ok none => (Except.ok none, s1, evs ++ [Ev.readFile (btoaModel fileName)])
        | Except.ok (some content) =>
          if jsFalsy content then
            (Except.ok none, s1, evs ++ [Ev.readFile (btoaModel fileName)])
          else
            let r := updateSaveStatusE s1 SaveStatus.saved
            (Except.ok (some content), r.1, (evs ++ [Ev.readFile (btoaModel fileName)]) ++ r.2)

/-- Embedding of loadStateFromFile (source lines 497-530): the try block
wrapped in the catch that maps a not-found error and every other error to a
null result. -/
def loadStateFromFile (s : PState) (env : HostEnv) : LoadRun :=
  match loadTry s env with
  | (Except.ok v, s1, evs) => ⟨v, s1, evs⟩
  | (Except.error msg, s1, evs) =>
    if containsNotFound msg then ⟨none, s1, evs⟩ else ⟨none, s1, evs⟩

/-- Result of a saveStateToFile run.  result none models a rejected promise
(possible only when uiProgress is not a function, which throws again inside
the finally block). -/
structure SaveRun where
  result : Option Bool
  final : PState
  events : List Ev
  susp : List PState

/-- The finally block of saveStateToFile on the path where a vue instance
with a callable uiProgress is bound (source lines 574-580): clears the
in-flight guard, then suspends on dismissing the progress indicator. -/
def saveFinish (s : PState) (ok : Bool) (evs : List Ev) (susp : List PState) : SaveRun :=
  ⟨some ok, { s with saveInProgress := false },
    evs ++ [Ev.uiProgress false],
    susp ++ [{ s with saveInProgress := false }]⟩

/-- The catch block of saveStateToFile followed by the finally block
(source lines 570-580), on the path where a vue instance with a callable
uiProgress is bound. -/
def saveCatch (s : PState) (evs : List Ev) (susp : List PState) : SaveRun :=
  let r := updateSaveStatusE s SaveStatus.unsaved
  saveFinish r.1 false (evs ++ r.2) susp

/-- Embedding of saveStateToFile (source lines 538-581).  The in-flight
guard is checked and set synchronously before the first await; on every
accepted entry the finally block clears the guard and dismisses the
progress indicator. -/
def saveStateToFile (s : PState) (env : HostEnv) (snap : JSV) : SaveRun :=
  if s.saveInProgress then ⟨some false, s, [], []⟩
  else
    let s1 : PState := { s with saveInProgress := true }
    let r1 := updateSaveStatusE s1 SaveStatus.saving
    match r1.1.vue with
    | none =>
      let r2 := updateSaveStatusE r1.1 SaveStatus.unsaved
      ⟨some false, { r2.1 with saveInProgress := false }, r1.2 ++ r2.2, []⟩
    | some t =>
      if t.hasUiProgress = false then
        let r2 := updateSaveStatusE r1.1 SaveStatus.unsaved
        ⟨none, { r2.1 with saveInProgress := false }, r1.2 ++ r2.2, []⟩
      else
        if env.uiShowOk = false then
          saveCatch r1.1 (r1.2 ++ [Ev.uiProgress true]) [r1.1]
        else
          match getStorageFileName r1.1 env with
          | ⟨Except.error _, s3, evF, suspF⟩ =>
            saveCatch s3 (r1.2 ++ [Ev.uiProgress true] ++ evF) ([r1.1] ++ suspF)
          | ⟨Except.ok fileName, s3, evF, suspF⟩ =>
            if fileName = "" then
              saveCatch s3 (r1.2 ++ [Ev.uiProgress true] ++ evF) ([r1.1] ++ suspF)
            else
              let content := mapSetToObject snap
              let evW := r1.2 ++ [Ev.uiProgress true] ++ evF ++
                [Ev.writeFile (btoaModel fileName) content]
              let suspW := [r1.1] ++ suspF ++ [s3]
              if env.writeOk then
                let r4 := updateSaveStatusE s3 SaveStatus.saved
                saveFinish r4.1 true (evW ++ r4.2) suspW
              else
                let r4 := updateSaveStatusE s3 SaveStatus.unsaved
                saveFinish r4.1 false (evW ++ r4.2) suspW

/-- Result of an initialization run.  threw is true exactly when the run
rejects: the initial progress-display await sits before the try block, so
its rejection escapes initialize itself. -/
structure InitRun where
  final : PState
  events : List Ev
  loaded : Option JSV
  threw : Bool

/-- The body of initialize after the initial progress display (source
lines 736-776, the try/catch): creates the sync status store (when the
Pinia registry is reachable), loads prior state, applies it and marks the
tracker Saved, or marks it Unsaved when no prior state exists, then
performs the one-time notice and listener registrations and, when a
callable uiProgress is bound, dismisses the progress indicator. -/
def initBody (s : PState) (env : HostEnv) (hasUi : Bool) : InitRun :=
  let ev0 := if hasUi then [Ev.uiProgress true] else []
  let s1 := if env.piniaPresent then { s with syncStatusStore := some SaveStatus.saved } else s
  let lr := loadStateFromFile s1 env
  let r3 :=
    match lr.result with
    | some _ => updateSaveStatusE lr.final SaveStatus.saved
    | none => updateSaveStatusE lr.final SaveStatus.unsaved
  let s4 : PState := { r3.1 with inited := true }
  let ev4 := if hasUi then [Ev.uiProgress false] else []
  let s5 := if s4.cfg.showInitialAlert && !s4.hasShownInitialAlert then
      { s4 with hasShownInitialAlert := true } else s4
  ⟨s5, ev0 ++ lr.events ++ r3.2 ++ ev4, lr.result, false⟩

/-- Embedding of the private initialize method (source lines 723-777):
no-op unless the ready signal was given and a vue instance is bound.  When
a callable uiProgress is bound, the initial progress-display await (source
line 733) runs before the try block, so its rejection rejects the whole
initialize call before the status store is created and before any load;
otherwise (or when that await resolves) the try/catch body runs. -/
def initPlugin (s : PState) (env : HostEnv) : InitRun :=
  match s.teraReady, s.vue with
  | true, some t =>
    if t.hasUiProgress then
      if env.uiShowOk = false then ⟨s, [Ev.uiProgress true], none, true⟩
      else initBody s env true
    else initBody s env false
  | _, _ => ⟨s, [], none, false⟩

/-- Embedding of the public setTeraReady operation (source lines 824-828):
validates the vue instance (rethrowing a validation failure to the caller),
sets the ready flag and awaits initialization, whose rejection (the
progress-display await outside the try block; the host's rejection reason
is opaque here) propagates to the caller. -/
def setTeraReady (s : PState) (env : HostEnv) : Except String Unit × PState × List Ev :=
  match validateVueInstance s.vue with
  | Except.error e => (Except.error e, s, [])
  | Except.ok _ =>
    let r := initPlugin { s with teraReady := true } env
    (if r.threw then Except.error "uiProgress rejected" else Except.ok (), r.final, r.events)

/-- Number of createProjectFile host calls in an event trace. -/
def countCreates (evs : List Ev) : Nat :=
  evs.countP (fun e => match e with | Ev.createFile _ => true | _ => false)

/-- Concrete configuration: shared state, autosave disabled. -/
def cfgA : Cfg := ⟨"p", false, 0, false, false⟩

/-- Concrete per-user configuration. -/
def cfgB : Cfg := ⟨"p", true, 0, false, false⟩

/-- Concrete host binding with full capabilities and an existing storage
file entry for key "p". -/
def teraA : Tera :=
  ⟨true, true, true, true, true, true, some ⟨some "proj", some [("p", TVal.tstr "f.json")]⟩⟩

/-- Concrete host binding with full capabilities and an empty temp mapping. -/
def teraFresh : Tera :=
  ⟨true, true, true, true, true, true, some ⟨some "proj", some []⟩⟩

/-- Concrete engine state ready to save: host bound, status store created. -/
def sA : PState :=
  { initState cfgA with vue := some teraA, syncStatusStore := some SaveStatus.saved }

/-- Concrete engine state with per-user configuration. -/
def sB : PState := { initState cfgB with vue := some teraA }

/-- Concrete fresh-project engine state for the locator claims. -/
def sFresh : PState :=
  { initState cfgA with vue := some teraFresh, syncStatusStore := some SaveStatus.saved }

/-- Concrete benign host environment. -/
def envA : HostEnv :=
  ⟨Except.ok "u", "X", Except.ok (some (JSV.jnum 7)), true, true, true⟩

/-- Host environment whose identity lookup yields the empty string. -/
def envB0 : HostEnv := { envA with getUserId := Except.ok "" }

/-- Host environment whose identity lookup yields the id u2. -/
def envB2 : HostEnv := { envA with getUserId := Except.ok "u2" }

/-- The plugin state at the last suspension point of a successful save from
sA: inside the finally block, awaiting the progress dismissal, after the
in-flight guard has been cleared but before the save promise resolves. -/
def tA : PState := (saveStateToFile sA envA JSV.jnull).susp.getLastD sA

/-- The plugin state at the first suspension point of that same save (the
progress-indicator await), while the in-flight guard is held. -/
def uA : PState := (saveStateToFile sA envA JSV.jnull).susp.getD 0 sA

/-- The engine state after a first storage-key resolution against a host
that reports the empty string as user id. -/
def sB1 : PState := (getStorageKey sB envB0).2.1

lemma mstoFields_keys (fs : List (String × JSV)) :
    (mstoFields fs).map Prod.fst = fs.map Prod.fst := by
  induction fs with
  | nil => rfl
  | cons p fs ih => cases p; simp [mstoFields, ih]

lemma mstoEntries_keys (es : List (MKey × JSV)) :
    (mstoEntries es).map Prod.fst = es.map (fun p => p.1.toStr) := by
  induction es with
  | nil => rfl
  | cons p es ih => cases p; simp [mstoEntries, ih]

lemma omsFields_keys (fs : List (String × JSV)) :
    (omsFields fs).map Prod.fst = fs.map Prod.fst := by
  induction fs with
  | nil => rfl
  | cons p fs ih => cases p; simp [omsFields, ih]

lemma nkFields_keys (fs : List (String × JSV)) :
    (nkFields fs).map Prod.fst = fs.map Prod.fst := by
  induction fs with
  | nil => rfl
  | cons p fs ih => cases p; simp [nkFields, ih]

lemma objSet_not_mem (fs : List (String × JSV)) (k : String) (v : JSV)
    (h : k ∉ fs.map Prod.fst) : objSet fs k v = fs ++ [(k, v)] := by
  have hany : fs.any (fun p => p.1 == k) = false := by
    simp only [List.any_eq_false, beq_iff_eq]
    intro p hp hk
    exact h (hk ▸ List.mem_map_of_mem Prod.fst hp)
  simp [objSet, hany]

lemma objFold_nodup (l acc : List (String × JSV))
    (h : (acc.map Prod.fst ++ l.map Prod.fst).Nodup) : objFold acc l = acc ++ l := by
  induction l generalizing acc with
  | nil => show acc = acc ++ []; simp
  | cons p l ih =>
    cases p with
    | mk k v =>
      have hmid : (k :: (acc.map Prod.fst ++ l.map Prod.fst)).Nodup := by
        have := h
        simpa [List.nodup_middle] using this
      have hk : k ∉ acc.map Prod.fst := fun hmem =>
        (List.nodup_cons.mp hmid).1 (List.mem_append.mpr (Or.inl hmem))
      have hstep : objSet acc k v = acc ++ [(k, v)] := objSet_not_mem acc k v hk
      have hrec : objFold (acc ++ [(k, v)]) l = (acc ++ [(k, v)]) ++ l := by
        apply ih
        have hkl : k ∉ l.map Prod.fst := fun hmem =>
          (List.nodup_cons.mp hmid).1 (List.mem_append.mpr (Or.inr hmem))
        have hrest : (acc.map Prod.fst ++ l.map Prod.fst).Nodup := (List.nodup_cons.mp hmid).2
        simpa [List.nodup_middle] using (List.nodup_cons.mpr ⟨fun hmem => by
          rcases List.mem_append.mp hmem with hc | hc
          · exact hk hc
          · exact hkl hc, hrest⟩)
      calc objFold acc ((k, v) :: l) = objFold (objSet acc k v) l := rfl
        _ = objFold (acc ++ [(k, v)]) l := by rw [hstep]
        _ = (acc ++ [(k, v)]) ++ l := hrec
        _ = acc ++ (k, v) :: l := by simp

lemma rt_list (xs : List JSV) (hg : goodList xs = true)
    (ih : ∀ x ∈ xs, goodB x = true → objectToMapSet (mapSetToObject x) = normKeys x) :
    omsList (mstoList xs) = nkList xs := by
  induction xs with
  | nil => rfl
  | cons x xs ihx =>
    simp only [goodList, Bool.and_eq_true] at hg
    simp only [mstoList, omsList, nkList]
    exact List.cons_eq_cons.mpr ⟨ih x (List.mem_cons_self x xs) hg.1,
      ihx hg.2 (fun y hy hgy => ih y (List.mem_cons_of_mem x hy) hgy)⟩

lemma rt_fields (fs : List (String × JSV)) (hg : goodFields fs = true)
    (ih : ∀ p ∈ fs, goodB p.2 = true → objectToMapSet (mapSetToObject p.2) = normKeys p.2) :
    omsFields (mstoFields fs) = nkFields fs := by
  induction fs with
  | nil => rfl
  | cons p fs ihf =>
    cases p with
    | mk k v =>
      simp only [goodFields, Bool.and_eq_true] at hg
      simp only [mstoFields, omsFields, nkFields]
      exact List.cons_eq_cons.mpr ⟨by
        simp only [Prod.mk.injEq, true_and]
        exact ih (k, v) (List.mem_cons_self _ fs) hg.1.2,
        ihf hg.2 (fun q hq hgq => ih q (List.mem_cons_of_mem _ hq) hgq)⟩

lemma rt_entries (es : List (MKey × JSV)) (hg : goodEntries es = true)
    (ih : ∀ p ∈ es, goodB p.2 = true → objectToMapSet (mapSetToObject p.2) = normKeys p.2) :
    (omsFields (mstoEntries es)).map (fun p => (MKey.kstr p.1, p.2)) = nkEntries es := by
  induction es with
  | nil => rfl
  | cons p es ihe =>
    cases p with
    | mk k v =>
      simp only [goodEntries, Bool.and_eq_true] at hg
      simp only [mstoEntries, omsFields, nkEntries, List.map_cons]
      exact List.cons_eq_cons.mpr ⟨by
        simp only [Prod.mk.injEq, true_and]
        exact ih (k, v) (List.mem_cons_self _ es) hg.1.2,
        ihe hg.2 (fun q hq hgq => ih q (List.mem_cons_of_mem _ hq) hgq)⟩

lemma goodFields_keys (fs : List (String × JSV)) (hg : goodFields fs = true) :
    ∀ p ∈ fs, p.1 ≠ "__isMap" ∧ p.1 ≠ "__isSet" := by
  induction fs with
  | nil => intro p hp; cases hp
  | cons q fs ihq =>
    intro p hp
    obtain ⟨a, b⟩ := q
    simp only [goodFields, Bool.and_eq_true] at hg
    rcases List.mem_cons.mp hp with h | h
    · subst h
      exact ⟨by simpa using hg.1.1.1, by simpa using hg.1.1.2⟩
    · exact ihq hg.2 p h

lemma goodEntries_keys (es : List (MKey × JSV)) (hg : goodEntries es = true) :
    ∀ p ∈ es, p.1.toStr ≠ "__isMap" := by
  induction es with
  | nil => intro p hp; cases hp
  | cons q es ihq =>
    intro p hp
    obtain ⟨a, b⟩ := q
    simp only [goodEntries, Bool.and_eq_true] at hg
    rcases List.mem_cons.mp hp with h | h
    · subst h
      simpa using hg.1.1
    · exact ihq hg.2 p h

lemma sizeOf_pos_jsv (v : JSV) : 0 < sizeOf v := by
  cases v <;> simp_arith

lemma rt_sized : ∀ (n : Nat) (v : JSV), sizeOf v ≤ n → goodB v = true →
    objectToMapSet (mapSetToObject v) = normKeys v := by
  intro n
  induction n with
  | zero => intro v hle _; exact absurd hle (by have := sizeOf_pos_jsv v; omega)
  | succ n ih =>
    intro v hle hg
    cases v with
    | jnull => rfl
    | jbool b => rfl
    | jnum m => rfl
    | jstr s => rfl
    | jdate t => rfl
    | jarr xs =>
      have ihm : ∀ x ∈ xs, goodB x = true → objectToMapSet (mapSetToObject x) = normKeys x := by
        intro x hx hgx
        have h1 : sizeOf x < sizeOf xs := List.sizeOf_lt_of_mem hx
        have h2 : sizeOf (JSV.jarr xs) = 1 + sizeOf xs := by simp
        exact ih x (by omega) hgx
      simp only [mapSetToObject, objectToMapSet, normKeys]
      exact congrArg JSV.jarr (rt_list xs (by simpa [goodB] using hg) ihm)
    | jset xs =>
      have ihm : ∀ x ∈ xs, goodB x = true → objectToMapSet (mapSetToObject x) = normKeys x := by
        intro x hx hgx
        have h1 : sizeOf x < sizeOf xs := List.sizeOf_lt_of_mem hx
        have h2 : sizeOf (JSV.jset xs) = 1 + sizeOf xs := by simp
        exact ih x (by omega) hgx
      have hl : omsList (mstoList xs) = nkList xs :=
        rt_list xs (by simpa [goodB] using hg) ihm
      simp only [mapSetToObject, objectToMapSet, omsFields, omsObj, normKeys]
      simp [lookupField, hl]
    | jobj fs =>
      have ihm : ∀ p ∈ fs, goodB p.2 = true →
          objectToMapSet (mapSetToObject p.2) = normKeys p.2 := by
        intro p hp hgp
        have h1 : sizeOf p < sizeOf fs := List.sizeOf_lt_of_mem hp
        have h2 : sizeOf (JSV.jobj fs) = 1 + sizeOf fs := by simp
        have h3 : sizeOf p.2 < sizeOf p := by cases p; simp_arith
        exact ih p.2 (by omega) hgp
      simp only [goodB, Bool.and_eq_true, decide_eq_true_eq] at hg
      obtain ⟨hgf, hnd⟩ := hg
      have hknot : ∀ k ∈ fs.map Prod.fst, k ≠ "__isMap" ∧ k ≠ "__isSet" := by
        intro k hk
        rcases List.mem_map.mp hk with ⟨p, hp, hpk⟩
        subst hpk
        exact goodFields_keys fs hgf p hp
      have henc : objFold [] (mstoFields fs) = mstoFields fs := by
        have := objFold_nodup (mstoFields fs) [] (by simpa [mstoFields_keys] using hnd)
        simpa using this
      have hnomap : (mstoFields fs).any (fun p => p.1 == "__isMap") = false := by
        simp only [List.any_eq_false]
        intro p hp
        have : p.1 ∈ fs.map Prod.fst := by
          rw [← mstoFields_keys]; exact List.mem_map_of_mem Prod.fst hp
        simpa using (hknot p.1 this).1
      have hnoset : (mstoFields fs).any (fun p => p.1 == "__isSet") = false := by
        simp only [List.any_eq_false]
        intro p hp
        have : p.1 ∈ fs.map Prod.fst := by
          rw [← mstoFields_keys]; exact List.mem_map_of_mem Prod.fst hp
        simpa using (hknot p.1 this).2
      have hdecf : omsFields (mstoFields fs) = nkFields fs := rt_fields fs hgf ihm
      have hdec : objFold [] (nkFields fs) = nkFields fs := by
        have := objFold_nodup (nkFields fs) [] (by simpa [nkFields_keys] using hnd)
        simpa using this
      simp only [mapSetToObject, henc, objectToMapSet, omsObj, hnomap, hnoset,
        Bool.false_eq_true, if_false, hdecf, hdec, normKeys]
    | jmap es =>
      have ihm : ∀ p ∈ es, goodB p.2 = true →
          objectToMapSet (mapSetToObject p.2) = normKeys p.2 := by
        intro p hp hgp
        have h1 : sizeOf p < sizeOf es := List.sizeOf_lt_of_mem hp
        have h2 : sizeOf (JSV.jmap es) = 1 + sizeOf es := by simp
        have h3 : sizeOf p.2 < sizeOf p := by cases p; simp_arith
        exact ih p.2 (by omega) hgp
      simp only [goodB, Bool.and_eq_true, decide_eq_true_eq] at hg
      obtain ⟨hge, hnd⟩ := hg
      have hknot : ∀ k ∈ es.map (fun p => p.1.toStr), k ≠ "__isMap" := by
        intro k hk
        rcases List.mem_map.mp hk with ⟨p, hp, hpk⟩
        subst hpk
        exact goodEntries_keys es hge p hp
      have hnd2 : ("__isMap" :: (mstoEntries es).map Prod.fst).Nodup := by
        rw [mstoEntries_keys]
        exact List.nodup_cons.mpr ⟨fun h => (hknot _ h) rfl, hnd⟩
      have henc : objFold [("__isMap", JSV.jbool true)] (mstoEntries es) =
          ("__isMap", JSV.jbool true) :: mstoEntries es := by
        have := objFold_nodup (mstoEntries es) [("__isMap", JSV.jbool true)] (by simpa using hnd2)
        simpa using this
      have hfil : (omsFields (mstoEntries es)).filter (fun p => p.1 != "__isMap") =
          omsFields (mstoEntries es) := by
        rw [List.filter_eq_self]
        intro p hp
        have : p.1 ∈ es.map (fun q => q.1.toStr) := by
          rw [← mstoEntries_keys, ← omsFields_keys]
          exact List.mem_map_of_mem Prod.fst hp
        simpa using hknot p.1 this
      have hent := rt_entries es hge ihm
      simp only [mapSetToObject, henc, objectToMapSet, omsObj, omsFields, normKeys]
      simp [hfil, hent]

/-- Helper: the round trip with the size measure eliminated. -/
lemma rt_main (v : JSV) (hg : goodB v = true) :
    objectToMapSet (mapSetToObject v) = normKeys v :=
  rt_sized (sizeOf v) v (Nat.le_refl _) hg

/-- C1: claimed, for every representable value (scalars, sequences, plain
mappings, Maps, Sets, nested combinations), objectToMapSet (mapSetToObject v)
reproduces v up to Date passthrough and Map-key string coercion.
Counterexample: the plain mapping with the single key "__isMap" (which
contains no Map and no Date, so the claim predicts it is reproduced exactly)
is serialized to itself and then deserialized into an empty Map, because
objectToMapSet detects the container sentinel by field presence alone. -/
theorem c1_counterexample :
    mapSetToObject (JSV.jobj [("__isMap", JSV.jnum 1)]) = JSV.jobj [("__isMap", JSV.jnum 1)] ∧
    objectToMapSet (mapSetToObject (JSV.jobj [("__isMap", JSV.jnum 1)])) = JSV.jmap [] ∧
    JSV.jmap [] ≠ JSV.jobj [("__isMap", JSV.jnum 1)] ∧
    normKeys (JSV.jobj [("__isMap", JSV.jnum 1)]) = JSV.jobj [("__isMap", JSV.jnum 1)] :=
  ⟨rfl, rfl, fun h => JSV.noConfusion h, rfl⟩

/-- C1 (amended): for every representable value v that is sentinel-clean
(no plain-object key is "__isMap" or "__isSet", object keys are unique, Map
keys string-coerce injectively and never to "__isMap"),
objectToMapSet (mapSetToObject v) reproduces v, except that Date leaves pass
through unchanged and Map keys are coerced to strings (normKeys). -/
theorem c1_roundtrip (v : JSV) (hg : goodB v = true) :
    objectToMapSet (mapSetToObject v) = normKeys v :=
  rt_main v hg

/-- C1 witness: the amended round trip evaluated at a concrete nested value
containing a numeric-keyed Map, a Set, a Date leaf and a plain object. -/
theorem c1_roundtrip_witness :
    goodB c1wv = true ∧
    objectToMapSet (mapSetToObject c1wv) =
      JSV.jmap [(MKey.kstr "3", JSV.jset [JSV.jstr "a", JSV.jdate 5]),
                (MKey.kstr "k", JSV.jobj [("x", JSV.jnull)])] :=
  ⟨rfl, c1_roundtrip c1wv rfl⟩

lemma updateSaveStatusE_none (s : PState) (st : SaveStatus) (h : s.syncStatusStore = none) :
    updateSaveStatusE s st = (s, []) := by
  simp [updateSaveStatusE, h]

lemma updateSaveStatusE_some (s : PState) (st : SaveStatus) (h : s.syncStatusStore.isSome = true) :
    (updateSaveStatusE s st).1 = { s with saveStatus := st, syncStatusStore := some st } := by
  cases hs : s.syncStatusStore with
  | none => rw [hs] at h; cases h
  | some a => simp [updateSaveStatusE, hs]

lemma updateSaveStatusE_fields (s : PState) (st : SaveStatus) :
    ((updateSaveStatusE s st).1).saveInProgress = s.saveInProgress ∧
    ((updateSaveStatusE s st).1).vue = s.vue ∧
    ((updateSaveStatusE s st).1).cfg = s.cfg ∧
    ((updateSaveStatusE s st).1).syncStatusStore.isSome = s.syncStatusStore.isSome := by
  cases hs : s.syncStatusStore <;> simp [updateSaveStatusE, hs]

lemma setVueProject_fields (s : PState) (p : Project) :
    ((setVueProject s p).cfg = s.cfg ∧ (setVueProject s p).userId = s.userId) ∧
    (setVueProject s p).saveStatus = s.saveStatus ∧
    (setVueProject s p).saveInProgress = s.saveInProgress ∧
    (setVueProject s p).syncStatusStore = s.syncStatusStore ∧
    (setVueProject s p).vue.isSome = s.vue.isSome := by
  cases hv : s.vue <;> simp [setVueProject, hv]

lemma updateTempInState_fields (s : PState) (k : String) (v : TVal) :
    ((updateTempInState s k v).cfg = s.cfg ∧ (updateTempInState s k v).userId = s.userId) ∧
    (updateTempInState s k v).saveStatus = s.saveStatus ∧
    (updateTempInState s k v).saveInProgress = s.saveInProgress ∧
    (updateTempInState s k v).syncStatusStore = s.syncStatusStore ∧
    (updateTempInState s k v).vue.isSome = s.vue.isSome := by
  cases hv : s.vue with
  | none => simp [updateTempInState, hv]
  | some t => cases hp : t.project <;> simp [updateTempInState, hv, hp]

lemma getStorageKey_fields (s : PState) (env : HostEnv) :
    ((getStorageKey s env).2.1).cfg = s.cfg ∧
    ((getStorageKey s env).2.1).vue = s.vue ∧
    ((getStorageKey s env).2.1).saveStatus = s.saveStatus ∧
    ((getStorageKey s env).2.1).saveInProgress = s.saveInProgress ∧
    ((getStorageKey s env).2.1).syncStatusStore = s.syncStatusStore := by
  unfold getStorageKey
  split
  · split
    · cases env.getUserId <;> simp
    · simp
  · simp

lemma createStorageFile_fields (s : PState) (t : Tera) (pid key : String)
    (evK : List Ev) (suspK : List PState) (env : HostEnv) :
    ((createStorageFile s t pid key evK suspK env).final).saveStatus = s.saveStatus ∧
    ((createStorageFile s t pid key evK suspK env).final).saveInProgress = s.saveInProgress ∧
    ((createStorageFile s t pid key evK suspK env).final).syncStatusStore = s.syncStatusStore ∧
    ((createStorageFile s t pid key evK suspK env).final).cfg = s.cfg := by
  unfold createStorageFile
  have h1 := updateTempInState_fields s key
    (TVal.tstr ("data-" ++ s.cfg.keyPref ++ "-" ++ env.nanoid ++ ".json"))
  split
  · simp
  · split
    · simp
    · simp_all

lemma createStorageFile_susp (s : PState) (t : Tera) (pid key : String)
    (evK : List Ev) (suspK : List PState) (env : HostEnv) :
    ∀ u ∈ (createStorageFile s t pid key evK suspK env).susp, u ∈ suspK ∨ u = s := by
  unfold createStorageFile
  split
  · intro u hu; exact Or.inl hu
  · split
    · intro u hu
      rcases List.mem_append.mp hu with h | h
      · exact Or.inl h
      · simp at h; exact Or.inr h
    · intro u hu
      rcases List.mem_append.mp hu with h | h
      · exact Or.inl h
      · simp at h; exact Or.inr h

lemma getStorageFileName_fields (s : PState) (env : HostEnv) :
    ((getStorageFileName s env).final).saveStatus = s.saveStatus ∧
    ((getStorageFileName s env).final).saveInProgress = s.saveInProgress ∧
    ((getStorageFileName s env).final).syncStatusStore = s.syncStatusStore ∧
    ((getStorageFileName s env).final).cfg = s.cfg := by
  cases hv : s.vue with
  | none => simp [getStorageFileName, hv]
  | some t =>
    cases hp : t.project with
    | none => simp [getStorageFileName, hv, hp]
    | some p =>
      have hsv := setVueProject_fields s { p with temp := some (p.temp.getD []) }
      rcases hE : getStorageKey (setVueProject s { p with temp := some (p.temp.getD []) }) env
        with ⟨res, s2, evK⟩
      have hgk := getStorageKey_fields (setVueProject s { p with temp := some (p.temp.getD []) }) env
      rw [hE] at hgk
      simp only [] at hgk
      cases hid : p.id with
      | none =>
        rw [hid] at hsv
        simp [getStorageFileName, hv, hp, hid]
        exact ⟨hsv.2.1, hsv.2.2.1, hsv.2.2.2.1, hsv.1.1⟩
      | some pid =>
        rw [hid] at hsv hgk hE
        by_cases hpid : pid = ""
        · subst hpid
          simp [getStorageFileName, hv, hp, hid]
          exact ⟨hsv.2.1, hsv.2.2.1, hsv.2.2.2.1, hsv.1.1⟩
        · cases res with
          | error e =>
            simp [getStorageFileName, hv, hp, hid, hpid, hE]
            refine ⟨?_, ?_, ?_, ?_⟩
            · rw [hgk.2.2.1, hsv.2.1]
            · rw [hgk.2.2.2.1, hsv.2.2.1]
            · rw [hgk.2.2.2.2, hsv.2.2.2.1]
            · rw [hgk.1, hsv.1.1]
          | ok key =>
            have hcf := createStorageFile_fields s2 t pid key evK
              (if evK.isEmpty then [] else
                [setVueProject s { p with temp := some (p.temp.getD []) }]) env
            have hfin : s2.saveStatus = s.saveStatus ∧ s2.saveInProgress = s.saveInProgress ∧
                s2.syncStatusStore = s.syncStatusStore ∧ s2.cfg = s.cfg := by
              refine ⟨?_, ?_, ?_, ?_⟩
              · rw [hgk.2.2.1, hsv.2.1]
              · rw [hgk.2.2.2.1, hsv.2.2.1]
              · rw [hgk.2.2.2.2, hsv.2.2.2.1]
              · rw [hgk.1, hsv.1.1]
            rcases hL : lookupTemp (p.temp.getD []) key with _ | tv
            · simp only [getStorageFileName, hv, hp, hid, hpid, hE, hL, if_neg hpid]
              simp_all
            · cases tv with
              | tstr name =>
                by_cases hn : name = ""
                · simp only [getStorageFileName, hv, hp, hid, hpid, hE, hL, if_neg hpid, hn]
                  simp_all
                · simp only [getStorageFileName, hv, hp, hid, hpid, hE, hL, if_neg hpid, if_neg hn]
                  simp_all
              | tnum n =>
                by_cases hn : n = 0
                · simp only [getStorageFileName, hv, hp, hid, hpid, hE, hL, if_neg hpid, hn]
                  simp_all
                · simp only [getStorageFileName, hv, hp, hid, hpid, hE, hL, if_neg hpid, if_neg hn]
                  simp_all

lemma getStorageFileName_susp (s : PState) (env : HostEnv) :
    ∀ u ∈ (getStorageFileName s env).susp,
      u.saveStatus = s.saveStatus ∧ u.saveInProgress = s.saveInProgress ∧
      u.syncStatusStore = s.syncStatusStore := by
  cases hv : s.vue with
  | none => simp [getStorageFileName, hv]
  | some t =>
    cases hp : t.project with
    | none => simp [getStorageFileName, hv, hp]
    | some p =>
      have hsv := setVueProject_fields s { p with temp := some (p.temp.getD []) }
      rcases hE : getStorageKey (setVueProject s { p with temp := some (p.temp.getD []) }) env
        with ⟨res, s2, evK⟩
      have hgk := getStorageKey_fields (setVueProject s { p with temp := some (p.temp.getD []) }) env
      rw [hE] at hgk
      simp only [] at hgk
      have hone : ∀ u ∈ (if evK.isEmpty then ([] : List PState)
          else [setVueProject s { p with temp := some (p.temp.getD []) }]),
          u.saveStatus = s.saveStatus ∧ u.saveInProgress = s.saveInProgress ∧
          u.syncStatusStore = s.syncStatusStore := by
        intro u hu
        by_cases he : evK.isEmpty
        · simp [he] at hu
        · simp [he] at hu
          subst hu
          exact ⟨hsv.2.1, hsv.2.2.1, hsv.2.2.2.1⟩
      have hs2 : s2.saveStatus = s.saveStatus ∧ s2.saveInProgress = s.saveInProgress ∧
          s2.syncStatusStore = s.syncStatusStore := by
        refine ⟨?_, ?_, ?_⟩
        · rw [hgk.2.2.1, hsv.2.1]
        · rw [hgk.2.2.2.1, hsv.2.2.1]
        · rw [hgk.2.2.2.2, hsv.2.2.2.1]
      cases hid : p.id with
      | none => simp [getStorageFileName, hv, hp, hid]
      | some pid =>
        rw [hid] at hE hone
        by_cases hpid : pid = ""
        · subst hpid
          simp [getStorageFileName, hv, hp, hid]
        · have hcs : ∀ key evs2,
              ∀ u ∈ (createStorageFile s2 t pid key evs2 (if evK.isEmpty then []
                else [setVueProject s
                  ({ id := some pid, temp := some (p.temp.getD []) } : Project)]) env).susp,
              u.saveStatus = s.saveStatus ∧ u.saveInProgress = s.saveInProgress ∧
              u.syncStatusStore = s.syncStatusStore := by
            intro key evs2 u hu
            rcases createStorageFile_susp s2 t pid key evs2 _ env u hu with hmem | heq
            · exact hone u hmem
            · subst heq; exact hs2
          cases res with
          | error e =>
            simp only [getStorageFileName, hv, hp, hid, hE, if_neg hpid]
            exact hone
          | ok key =>
            rcases hL : lookupTemp (p.temp.getD []) key with _ | tv
            · simp only [getStorageFileName, hv, hp, hid, hE, hL, if_neg hpid]
              exact hcs key evK
            · cases tv with
              | tstr name =>
                by_cases hn : name = ""
                · simp only [getStorageFileName, hv, hp, hid, hE, hL, if_neg hpid]
                  rw [if_pos hn]
                  exact hcs key evK
                · simp only [getStorageFileName, hv, hp, hid, hE, hL, if_neg hpid]
                  rw [if_neg hn]
                  exact hone
              | tnum n =>
                by_cases hn : n = 0
                · simp only [getStorageFileName, hv, hp, hid, hE, hL, if_neg hpid]
                  rw [if_pos hn]
                  exact hcs key evK
                · simp only [getStorageFileName, hv, hp, hid, hE, hL, if_neg hpid]
                  rw [if_neg hn]
                  exact hone

lemma saveFinish_parts (s : PState) (ok : Bool) (evs : List Ev) (susp : List PState) :
    (saveFinish s ok evs susp).result = some ok ∧
    (saveFinish s ok evs susp).final = { s with saveInProgress := false } ∧
    (saveFinish s ok evs susp).events = evs ++ [Ev.uiProgress false] ∧
    (saveFinish s ok evs susp).susp = susp ++ [{ s with saveInProgress := false }] :=
  ⟨rfl, rfl, rfl, rfl⟩

lemma saveCatch_parts (s : PState) (evs : List Ev) (susp : List PState) :
    (saveCatch s evs susp).result = some false ∧
    (saveCatch s evs susp).final =
      { (updateSaveStatusE s SaveStatus.unsaved).1 with saveInProgress := false } ∧
    (saveCatch s evs susp).events =
      (evs ++ (updateSaveStatusE s SaveStatus.unsaved).2) ++ [Ev.uiProgress false] ∧
    (saveCatch s evs susp).susp =
      susp ++ [{ (updateSaveStatusE s SaveStatus.unsaved).1 with saveInProgress := false }] :=
  ⟨rfl, rfl, rfl, rfl⟩

lemma saveCatch_run (s2 : PState) (evs : List Ev) (susp : List PState) :
    ((saveCatch s2 evs susp).final).saveInProgress = false ∧
    (saveCatch s2 evs susp).events.getLast? = some (Ev.uiProgress false) ∧
    (saveCatch s2 evs susp).result = some false ∧
    (s2.syncStatusStore.isSome = true →
      ((saveCatch s2 evs susp).final).saveStatus = SaveStatus.unsaved) ∧
    (saveCatch s2 evs susp).susp.dropLast = susp ∧
    (s2.syncStatusStore = none →
      ((saveCatch s2 evs susp).final).saveStatus = s2.saveStatus) := by
  refine ⟨?_, ?_, rfl, ?_, ?_, ?_⟩
  · cases hs : s2.syncStatusStore <;> simp [saveCatch, saveFinish, updateSaveStatusE, hs]
  · simp [saveCatch, saveFinish]
  · intro hst
    cases hs : s2.syncStatusStore with
    | none => rw [hs] at hst; cases hst
    | some a => simp [saveCatch, saveFinish, updateSaveStatusE, hs]
  · simp [saveCatch, saveFinish, List.dropLast_concat]
  · intro hn
    simp [saveCatch, saveFinish, updateSaveStatusE, hn]

lemma saveFinish_run (s2 : PState) (ok : Bool) (evs : List Ev) (susp : List PState) :
    ((saveFinish s2 ok evs susp).final).saveInProgress = false ∧
    (saveFinish s2 ok evs susp).events.getLast? = some (Ev.uiProgress false) ∧
    (saveFinish s2 ok evs susp).result = some ok ∧
    ((saveFinish s2 ok evs susp).final).saveStatus = s2.saveStatus ∧
    (saveFinish s2 ok evs susp).susp.dropLast = susp := by
  refine ⟨rfl, ?_, rfl, rfl, ?_⟩
  · simp [saveFinish]
  · simp [saveFinish, List.dropLast_concat]

lemma save_run_facts (s : PState) (env : HostEnv) (snap : JSV) (h : s.saveInProgress = false) :
    ((saveStateToFile s env snap).final).saveInProgress = false ∧
    (∀ t0, s.vue = some t0 → t0.hasUiProgress = true →
      (saveStateToFile s env snap).events.getLast? = some (Ev.uiProgress false)) ∧
    (s.syncStatusStore.isSome = true → (saveStateToFile s env snap).result = some true →
      ((saveStateToFile s env snap).final).saveStatus = SaveStatus.saved) ∧
    (s.syncStatusStore.isSome = true → (saveStateToFile s env snap).result = some false →
      ((saveStateToFile s env snap).final).saveStatus = SaveStatus.unsaved) ∧
    (∀ u ∈ (saveStateToFile s env snap).susp.dropLast,
      u.saveInProgress = true ∧
      (s.syncStatusStore.isSome = true → u.saveStatus = SaveStatus.saving)) ∧
    (s.syncStatusStore = none →
      ((saveStateToFile s env snap).final).saveStatus = s.saveStatus) := by
  have f1 : ((updateSaveStatusE { s with saveInProgress := true } SaveStatus.saving).1).saveInProgress
      = true := by
    cases hs : s.syncStatusStore <;> simp [updateSaveStatusE, hs]
  have f2 : ((updateSaveStatusE { s with saveInProgress := true } SaveStatus.saving).1).vue
      = s.vue := by
    cases hs : s.syncStatusStore <;> simp [updateSaveStatusE, hs]
  have f3 : ((updateSaveStatusE { s with saveInProgress := true } SaveStatus.saving).1).syncStatusStore.isSome
      = s.syncStatusStore.isSome := by
    cases hs : s.syncStatusStore <;> simp [updateSaveStatusE, hs]
  have f4 : s.syncStatusStore.isSome = true →
      ((updateSaveStatusE { s with saveInProgress := true } SaveStatus.saving).1).saveStatus
      = SaveStatus.saving := by
    intro hst
    cases hs : s.syncStatusStore with
    | none => rw [hs] at hst; cases hst
    | some a => simp [updateSaveStatusE, hs]
  have f6 : s.syncStatusStore = none →
      (updateSaveStatusE { s with saveInProgress := true } SaveStatus.saving).1 =
      { s with saveInProgress := true } := by
    intro hn
    rw [updateSaveStatusE_none { s with saveInProgress := true } SaveStatus.saving hn]
  have f7 : s.syncStatusStore = none →
      ((updateSaveStatusE { s with saveInProgress := true } SaveStatus.saving).1).syncStatusStore
      = none := by
    intro hn
    rw [f6 hn]
    exact hn
  have f8 : s.syncStatusStore = none →
      ((updateSaveStatusE { s with saveInProgress := true } SaveStatus.saving).1).saveStatus
      = s.saveStatus := by
    intro hn
    rw [f6 hn]
  cases hvv : ((updateSaveStatusE { s with saveInProgress := true } SaveStatus.saving).1).vue with
  | none =>
    have hrun : saveStateToFile s env snap = ⟨some false,
        { (updateSaveStatusE
            (updateSaveStatusE { s with saveInProgress := true } SaveStatus.saving).1
            SaveStatus.unsaved).1 with saveInProgress := false },
        (updateSaveStatusE { s with saveInProgress := true } SaveStatus.saving).2 ++
          (updateSaveStatusE
            (updateSaveStatusE { s with saveInProgress := true } SaveStatus.saving).1
            SaveStatus.unsaved).2, []⟩ := by
      simp only [saveStateToFile, h, Bool.false_eq_true, if_false, hvv]
    rw [hrun]
    refine ⟨rfl, ?_, ?_, ?_, ?_, ?_⟩
    · intro t0 ht0 hup0
      rw [← f2, hvv] at ht0
      cases ht0
    · intro hst hres
      exact absurd hres (by simp)
    · intro hst hres
      have hx := updateSaveStatusE_some
        (updateSaveStatusE { s with saveInProgress := true } SaveStatus.saving).1
        SaveStatus.unsaved (by rw [f3]; exact hst)
      simp [hx]
    · simp
    · intro hn
      have e2 := updateSaveStatusE_none
        ((updateSaveStatusE { s with saveInProgress := true } SaveStatus.saving).1)
        SaveStatus.unsaved (f7 hn)
      simp only [e2]
      simp [f8 hn]
  | some t =>
    by_cases hup : t.hasUiProgress = false
    · have hrun : saveStateToFile s env snap = ⟨none,
          { (updateSaveStatusE
              (updateSaveStatusE { s with saveInProgress := true } SaveStatus.saving).1
              SaveStatus.unsaved).1 with saveInProgress := false },
          (updateSaveStatusE { s with saveInProgress := true } SaveStatus.saving).2 ++
            (updateSaveStatusE
              (updateSaveStatusE { s with saveInProgress := true } SaveStatus.saving).1
              SaveStatus.unsaved).2, []⟩ := by
        simp only [saveStateToFile, h, Bool.false_eq_true, if_false, hvv]
        rw [if_pos hup]
      rw [hrun]
      refine ⟨rfl, ?_, ?_, ?_, ?_, ?_⟩
      · intro t0 ht0 hup0
        rw [← f2, hvv] at ht0
        cases Option.some.inj ht0
        rw [hup0] at hup
        cases hup
      · intro hst hres
        exact absurd hres (by simp)
      · intro hst hres
        exact absurd hres (by simp)
      · simp
      · intro hn
        have e2 := updateSaveStatusE_none
          ((updateSaveStatusE { s with saveInProgress := true } SaveStatus.saving).1)
          SaveStatus.unsaved (f7 hn)
        simp only [e2]
        simp [f8 hn]
    · by_cases hshow : env.uiShowOk = false
      · have hrun : saveStateToFile s env snap = saveCatch
            (updateSaveStatusE { s with saveInProgress := true } SaveStatus.saving).1
            ((updateSaveStatusE { s with saveInProgress := true } SaveStatus.saving).2 ++
              [Ev.uiProgress true])
            [(updateSaveStatusE { s with saveInProgress := true } SaveStatus.saving).1] := by
          simp only [saveStateToFile, h, Bool.false_eq_true, if_false, hvv]
          rw [if_neg hup, if_pos hshow]
        rw [hrun]
        have hc := saveCatch_run
          (updateSaveStatusE { s with saveInProgress := true } SaveStatus.saving).1
          ((updateSaveStatusE { s with saveInProgress := true } SaveStatus.saving).2 ++
            [Ev.uiProgress true])
          [(updateSaveStatusE { s with saveInProgress := true } SaveStatus.saving).1]
        refine ⟨hc.1, fun t0 ht0 hup0 => hc.2.1, ?_, ?_, ?_, ?_⟩
        · intro hst hres
          rw [hc.2.2.1] at hres
          cases hres
        · intro hst hres
          exact hc.2.2.2.1 (by rw [f3]; exact hst)
        · rw [hc.2.2.2.2.1]
          intro u hu
          simp at hu
          subst hu
          exact ⟨f1, fun hst => f4 hst⟩
        · intro hn
          rw [hc.2.2.2.2.2 (f7 hn)]
          exact f8 hn
      · rcases hE : getStorageFileName
          (updateSaveStatusE { s with saveInProgress := true } SaveStatus.saving).1 env
          with ⟨resF, s3, evF, suspF⟩
        have hflds := getStorageFileName_fields
          (updateSaveStatusE { s with saveInProgress := true } SaveStatus.saving).1 env
        have hsusp := getStorageFileName_susp
          (updateSaveStatusE { s with saveInProgress := true } SaveStatus.saving).1 env
        rw [hE] at hflds hsusp
        simp only [] at hflds hsusp
        have hsuspgood : ∀ u ∈
            [(updateSaveStatusE { s with saveInProgress := true } SaveStatus.saving).1] ++ suspF,
            u.saveInProgress = true ∧
            (s.syncStatusStore.isSome = true → u.saveStatus = SaveStatus.saving) := by
          intro u hu
          rcases List.mem_append.mp hu with h1 | h1
          · simp at h1
            subst h1
            exact ⟨f1, fun hst => f4 hst⟩
          · have hx := hsusp u h1
            refine ⟨by rw [hx.2.1]; exact f1, fun hst => ?_⟩
            rw [hx.1]
            exact f4 hst
        have hstore3 : s.syncStatusStore.isSome = true → s3.syncStatusStore.isSome = true := by
          intro hst
          rw [hflds.2.2.1, f3]
          exact hst
        cases resF with
        | error e =>
          have hrun : saveStateToFile s env snap = saveCatch s3
              ((updateSaveStatusE { s with saveInProgress := true } SaveStatus.saving).2 ++
                [Ev.uiProgress true] ++ evF)
              ([(updateSaveStatusE { s with saveInProgress := true } SaveStatus.saving).1]
                ++ suspF) := by
            simp only [saveStateToFile, h, Bool.false_eq_true, if_false, hvv, hE]
            rw [if_neg hup, if_neg hshow]
          rw [hrun]
          have hc := saveCatch_run s3
            ((updateSaveStatusE { s with saveInProgress := true } SaveStatus.saving).2 ++
              [Ev.uiProgress true] ++ evF)
            ([(updateSaveStatusE { s with saveInProgress := true } SaveStatus.saving).1]
              ++ suspF)
          refine ⟨hc.1, fun t0 ht0 hup0 => hc.2.1, ?_, ?_, ?_, ?_⟩
          · intro hst hres
            rw [hc.2.2.1] at hres
            cases hres
          · intro hst hres
            exact hc.2.2.2.1 (hstore3 hst)
          · rw [hc.2.2.2.2.1]
            exact hsuspgood
          · intro hn
            rw [hc.2.2.2.2.2 (by rw [hflds.2.2.1]; exact f7 hn), hflds.1]
            exact f8 hn
        | ok fileName =>
          by_cases hfn : fileName = ""
          · have hrun : saveStateToFile s env snap = saveCatch s3
                ((updateSaveStatusE { s with saveInProgress := true } SaveStatus.saving).2 ++
                  [Ev.uiProgress true] ++ evF)
                ([(updateSaveStatusE { s with saveInProgress := true } SaveStatus.saving).1]
                  ++ suspF) := by
              simp only [saveStateToFile, h, Bool.false_eq_true, if_false, hvv, hE]
              rw [if_neg hup, if_neg hshow, if_pos hfn]
            rw [hrun]
            have hc := saveCatch_run s3
              ((updateSaveStatusE { s with saveInProgress := true } SaveStatus.saving).2 ++
                [Ev.uiProgress true] ++ evF)
              ([(updateSaveStatusE { s with saveInProgress := true } SaveStatus.saving).1]
                ++ suspF)
            refine ⟨hc.1, fun t0 ht0 hup0 => hc.2.1, ?_, ?_, ?_, ?_⟩
            · intro hst hres
              rw [hc.2.2.1] at hres
              cases hres
            · intro hst hres
              exact hc.2.2.2.1 (hstore3 hst)
            · rw [hc.2.2.2.2.1]
              exact hsuspgood
            · intro hn
              rw [hc.2.2.2.2.2 (by rw [hflds.2.2.1]; exact f7 hn), hflds.1]
              exact f8 hn
          · have hsuspw : ∀ u ∈
                [(updateSaveStatusE { s with saveInProgress := true } SaveStatus.saving).1]
                  ++ suspF ++ [s3],
                u.saveInProgress = true ∧
                (s.syncStatusStore.isSome = true → u.saveStatus = SaveStatus.saving) := by
              intro u hu
              rcases List.mem_append.mp hu with h1 | h1
              · exact hsuspgood u h1
              · simp at h1
                subst h1
                refine ⟨by rw [hflds.2.1]; exact f1, fun hst => ?_⟩
                rw [hflds.1]
                exact f4 hst
            by_cases hw : env.writeOk = true
            · have hrun : saveStateToFile s env snap = saveFinish
                  (updateSaveStatusE s3 SaveStatus.saved).1 true
                  ((updateSaveStatusE { s with saveInProgress := true } SaveStatus.saving).2 ++
                    [Ev.uiProgress true] ++ evF ++
                    [Ev.writeFile (btoaModel fileName) (mapSetToObject snap)] ++
                    (updateSaveStatusE s3 SaveStatus.saved).2)
                  ([(updateSaveStatusE { s with saveInProgress := true } SaveStatus.saving).1]
                    ++ suspF ++ [s3]) := by
                simp only [saveStateToFile, h, Bool.false_eq_true, if_false, hvv, hE]
                rw [if_neg hup, if_neg hshow, if_neg hfn, if_pos hw]
              rw [hrun]
              have hf := saveFinish_run (updateSaveStatusE s3 SaveStatus.saved).1 true
                ((updateSaveStatusE { s with saveInProgress := true } SaveStatus.saving).2 ++
                  [Ev.uiProgress true] ++ evF ++
                  [Ev.writeFile (btoaModel fileName) (mapSetToObject snap)] ++
                  (updateSaveStatusE s3 SaveStatus.saved).2)
                ([(updateSaveStatusE { s with saveInProgress := true } SaveStatus.saving).1]
                  ++ suspF ++ [s3])
              refine ⟨hf.1, fun t0 ht0 hup0 => hf.2.1, ?_, ?_, ?_, ?_⟩
              · intro hst hres
                rw [hf.2.2.2.1, updateSaveStatusE_some s3 _ (hstore3 hst)]
              · intro hst hres
                rw [hf.2.2.1] at hres
                cases hres
              · rw [hf.2.2.2.2]
                exact hsuspw
              · intro hn
                have h3n : s3.syncStatusStore = none := by
                  rw [hflds.2.2.1]
                  exact f7 hn
                rw [hf.2.2.2.1, updateSaveStatusE_none s3 _ h3n, hflds.1]
                exact f8 hn
            · have hrun : saveStateToFile s env snap = saveFinish
                  (updateSaveStatusE s3 SaveStatus.unsaved).1 false
                  ((updateSaveStatusE { s with saveInProgress := true } SaveStatus.saving).2 ++
                    [Ev.uiProgress true] ++ evF ++
                    [Ev.writeFile (btoaModel fileName) (mapSetToObject snap)] ++
                    (updateSaveStatusE s3 SaveStatus.unsaved).2)
                  ([(updateSaveStatusE { s with saveInProgress := true } SaveStatus.saving).1]
                    ++ suspF ++ [s3]) := by
                simp only [saveStateToFile, h, Bool.false_eq_true, if_false, hvv, hE]
                rw [if_neg hup, if_neg hshow, if_neg hfn, if_neg hw]
              rw [hrun]
              have hf := saveFinish_run (updateSaveStatusE s3 SaveStatus.unsaved).1 false
                ((updateSaveStatusE { s with saveInProgress := true } SaveStatus.saving).2 ++
                  [Ev.uiProgress true] ++ evF ++
                  [Ev.writeFile (btoaModel fileName) (mapSetToObject snap)] ++
                  (updateSaveStatusE s3 SaveStatus.unsaved).2)
                ([(updateSaveStatusE { s with saveInProgress := true } SaveStatus.saving).1]
                  ++ suspF ++ [s3])
              refine ⟨hf.1, fun t0 ht0 hup0 => hf.2.1, ?_, ?_, ?_, ?_⟩
              · intro hst hres
                rw [hf.2.2.1] at hres
                cases hres
              · intro hst hres
                rw [hf.2.2.2.1, updateSaveStatusE_some s3 _ (hstore3 hst)]
              · rw [hf.2.2.2.2]
                exact hsuspw
              · intro hn
                have h3n : s3.syncStatusStore = none := by
                  rw [hflds.2.2.1]
                  exact f7 hn
                rw [hf.2.2.2.1, updateSaveStatusE_none s3 _ h3n, hflds.1]
                exact f8 hn

lemma save_guard_true (s : PState) (env : HostEnv) (snap : JSV) (h : s.saveInProgress = true) :
    saveStateToFile s env snap = ⟨some false, s, [], []⟩ := by
  simp [saveStateToFile, h]

lemma getStorageFileName_vue (s : PState) (env : HostEnv) (t : Tera) (hv : s.vue = some t) :
    ((getStorageFileName s env).final).vue.isSome = true := by
  cases hp : t.project with
  | none => simp [getStorageFileName, hv, hp]
  | some p =>
    have hsv := setVueProject_fields s { p with temp := some (p.temp.getD []) }
    have hsv2 : (setVueProject s { p with temp := some (p.temp.getD []) }).vue.isSome = true := by
      rw [hsv.2.2.2.2, hv]
      rfl
    rcases hE : getStorageKey (setVueProject s { p with temp := some (p.temp.getD []) }) env
      with ⟨res, s2, evK⟩
    have hgk := getStorageKey_fields (setVueProject s { p with temp := some (p.temp.getD []) }) env
    rw [hE] at hgk
    simp only [] at hgk
    have hs2 : s2.vue.isSome = true := by
      rw [hgk.2.1]
      exact hsv2
    cases hid : p.id with
    | none =>
      rw [hid] at hsv2
      simp only [getStorageFileName, hv, hp, hid]
      exact hsv2
    | some pid =>
      rw [hid] at hsv2 hE
      by_cases hpid : pid = ""
      · simp only [getStorageFileName, hv, hp, hid]
        rw [if_pos hpid]
        exact hsv2
      · have hcs : ∀ key evs2 suspK,
            ((createStorageFile s2 t pid key evs2 suspK env).final).vue.isSome = true := by
          intro key evs2 suspK
          unfold createStorageFile
          split
          · exact hs2
          · split
            · exact hs2
            · have := updateTempInState_fields s2 key
                (TVal.tstr ("data-" ++ s2.cfg.keyPref ++ "-" ++ env.nanoid ++ ".json"))
              rw [this.2.2.2.2]
              exact hs2
        cases res with
        | error e =>
          simp only [getStorageFileName, hv, hp, hid, hE, if_neg hpid]
          exact hs2
        | ok key =>
          rcases hL : lookupTemp (p.temp.getD []) key with _ | tv
          · simp only [getStorageFileName, hv, hp, hid, hE, hL, if_neg hpid]
            exact hcs key evK _
          · cases tv with
            | tstr name =>
              by_cases hn : name = ""
              · simp only [getStorageFileName, hv, hp, hid, hE, hL, if_neg hpid]
                rw [if_pos hn]
                exact hcs key evK _
              · simp only [getStorageFileName, hv, hp, hid, hE, hL, if_neg hpid]
                rw [if_neg hn]
                exact hs2
            | tnum n =>
              by_cases hn : n = 0
              · simp only [getStorageFileName, hv, hp, hid, hE, hL, if_neg hpid]
                rw [if_pos hn]
                exact hcs key evK _
              · simp only [getStorageFileName, hv, hp, hid, hE, hL, if_neg hpid]
                rw [if_neg hn]
                exact hs2

lemma getStorageFileName_none_vue (s : PState) (env : HostEnv) (h : s.vue = none) :
    (getStorageFileName s env).res = Except.error "Missing vueInstance.tera.project" := by
  simp [getStorageFileName, h]

lemma loadTry_facts (s : PState) (env : HostEnv) :
    ((loadTry s env).2.1).saveInProgress = s.saveInProgress ∧
    ((loadTry s env).2.1).syncStatusStore.isSome = s.syncStatusStore.isSome ∧
    (s.syncStatusStore = none → ((loadTry s env).2.1).saveStatus = s.saveStatus) := by
  rcases hE : getStorageFileName s env with ⟨res, s1, evs, susp⟩
  have hflds := getStorageFileName_fields s env
  rw [hE] at hflds
  simp only [] at hflds
  have hbase : s1.saveInProgress = s.saveInProgress ∧
      s1.syncStatusStore.isSome = s.syncStatusStore.isSome ∧
      (s.syncStatusStore = none → s1.saveStatus = s.saveStatus) :=
    ⟨hflds.2.1, by rw [hflds.2.2.1], fun hn => hflds.1⟩
  cases res with
  | error e => simp only [loadTry, hE]; exact hbase
  | ok fn =>
    by_cases hfn : fn = ""
    · simp only [loadTry, hE]
      rw [if_pos hfn]
      exact hbase
    · cases hv1 : s1.vue with
      | none =>
        simp only [loadTry, hE, hv1]
        rw [if_neg hfn]
        exact hbase
      | some t1 =>
        cases hr : env.readResult with
        | error msg =>
          simp only [loadTry, hE, hv1, hr]
          rw [if_neg hfn]
          exact hbase
        | ok content =>
          cases content with
          | none =>
            simp only [loadTry, hE, hv1, hr]
            rw [if_neg hfn]
            exact hbase
          | some d =>
            by_cases hfd : jsFalsy d = true
            · simp only [loadTry, hE, hv1, hr]
              rw [if_neg hfn, if_pos hfd]
              exact hbase
            · simp only [loadTry, hE, hv1, hr]
              rw [if_neg hfn, if_neg hfd]
              have hu := updateSaveStatusE_fields s1 SaveStatus.saved
              refine ⟨by rw [hu.1]; exact hbase.1, by rw [hu.2.2.2]; exact hbase.2.1, ?_⟩
              intro hn
              have h1n : s1.syncStatusStore = none := by
                rw [← Option.not_isSome_iff_eq_none, hbase.2.1, hn]
                simp
              rw [updateSaveStatusE_none s1 SaveStatus.saved h1n]
              exact hbase.2.2 hn

lemma load_final (s : PState) (env : HostEnv) :
    (loadStateFromFile s env).final = (loadTry s env).2.1 := by
  rcases hT : loadTry s env with ⟨r, s1, evs⟩
  cases r with
  | ok v => simp [loadStateFromFile, hT]
  | error msg => simp [loadStateFromFile, hT]

lemma initBody_status (s : PState) (env : HostEnv) (hasUi : Bool)
    (h3 : env.piniaPresent = true) :
    ((initBody s env hasUi).loaded = none →
      ((initBody s env hasUi).final).saveStatus = SaveStatus.unsaved) ∧
    (∀ d, (initBody s env hasUi).loaded = some d →
      ((initBody s env hasUi).final).saveStatus = SaveStatus.saved) := by
  have hstore1 : ((loadStateFromFile { s with syncStatusStore := some SaveStatus.saved }
      env).final).syncStatusStore.isSome = true := by
    rw [load_final]
    have := (loadTry_facts { s with syncStatusStore := some SaveStatus.saved } env).2.1
    rw [this]
    rfl
  rcases hL : loadStateFromFile { s with syncStatusStore := some SaveStatus.saved } env
    with ⟨res, sf, evs⟩
  rw [hL] at hstore1
  simp only [] at hstore1
  obtain ⟨b, hsf⟩ := Option.isSome_iff_exists.mp hstore1
  cases res with
  | none =>
    constructor
    · intro _
      simp [initBody, h3, hL, updateSaveStatusE, hsf, apply_ite PState.saveStatus]
    · intro d hd
      exfalso
      simp [initBody, h3, hL] at hd
  | some d0 =>
    constructor
    · intro hnone
      exfalso
      simp [initBody, h3, hL] at hnone
    · intro d hd
      simp [initBody, h3, hL, updateSaveStatusE, hsf, apply_ite PState.saveStatus]

lemma initPlugin_run (s : PState) (env : HostEnv) (t : Tera)
    (h1 : s.teraReady = true) (h2 : s.vue = some t)
    (h4 : t.hasUiProgress = false ∨ env.uiShowOk = true) :
    initPlugin s env = initBody s env t.hasUiProgress := by
  cases hui : t.hasUiProgress with
  | false => simp [initPlugin, h1, h2, hui]
  | true =>
    rcases h4 with h4 | h4
    · rw [hui] at h4
      exact absurd h4 (by simp)
    · simp [initPlugin, h1, h2, hui, h4]

lemma initPlugin_status (s : PState) (env : HostEnv) (t : Tera)
    (h1 : s.teraReady = true) (h2 : s.vue = some t) (h3 : env.piniaPresent = true)
    (h4 : t.hasUiProgress = false ∨ env.uiShowOk = true) :
    ((initPlugin s env).loaded = none →
      ((initPlugin s env).final).saveStatus = SaveStatus.unsaved) ∧
    (∀ d, (initPlugin s env).loaded = some d →
      ((initPlugin s env).final).saveStatus = SaveStatus.saved) := by
  rw [initPlugin_run s env t h1 h2 h4]
  exact initBody_status s env t.hasUiProgress h3

lemma initPlugin_noop (s : PState) (env : HostEnv) (h : s.teraReady = false ∨ s.vue = none) :
    initPlugin s env = ⟨s, [], none, false⟩ := by
  rcases h with h | h
  · cases hv : s.vue <;> simp [initPlugin, h, hv]
  · cases ht : s.teraReady <;> simp [initPlugin, h, ht]

lemma lookupTemp_set (temp : List (String × TVal)) (k : String) (v : TVal) :
    lookupTemp (setTempEntry temp k v) k = some v := by
  unfold setTempEntry
  by_cases ha : temp.any (fun q => q.1 == k) = true
  · rw [if_pos ha]
    induction temp with
    | nil => simp at ha
    | cons q temp ih =>
      by_cases hq : (q.1 == k) = true
      · unfold lookupTemp
        rw [List.map_cons, if_pos hq, List.find?_cons_of_pos _ (by simp)]
        rfl
      · unfold lookupTemp
        rw [List.map_cons, if_neg hq, List.find?_cons_of_neg _ (by simpa using hq)]
        have ha2 : temp.any (fun q => q.1 == k) = true := by
          simp only [List.any_cons] at ha
          rcases Bool.or_eq_true_iff.mp ha with hx | hx
          · exact absurd hx hq
          · exact hx
        exact ih ha2
  · rw [if_neg ha]
    have ha2 : temp.any (fun q => q.1 == k) = false := by rwa [Bool.not_eq_true] at ha
    have hnone : temp.find? (fun q => q.1 == k) = none := by
      rw [List.find?_eq_none]
      intro q hq
      exact List.any_eq_false.mp ha2 q hq
    unfold lookupTemp
    rw [List.find?_append, hnone, Option.none_or, List.find?_cons_of_pos _ (by simp)]
    rfl

lemma dataName_ne (x : String) : ("data-" ++ x) ≠ "" := by
  intro hcon
  have hlen := congrArg String.length hcon
  rw [String.length_append] at hlen
  rw [show ("data-" : String).length = 5 from rfl, show ("" : String).length = 0 from rfl] at hlen
  omega

/-- C2: claimed, a saveStateToFile call made while a previous call has not
yet completed returns false immediately with no host call, so only the
first call performs a write.  Counterexample: tA is a suspension state of
the first save (the await inside the finally block, after the guard was
cleared but strictly before the first call resolves); a second call started
there is accepted, performs a full write, and returns true. -/
theorem c2_counterexample :
    tA ∈ (saveStateToFile sA envA JSV.jnull).susp ∧
    tA.saveInProgress = false ∧
    (saveStateToFile tA envA JSV.jnull).result = some true ∧
    (saveStateToFile tA envA JSV.jnull).events ≠ [] := by
  refine ⟨by decide, rfl, rfl, ?_⟩
  rw [show (saveStateToFile tA envA JSV.jnull).events =
    [Ev.status SaveStatus.saving, Ev.uiProgress true,
      Ev.writeFile "proj/f.json" JSV.jnull, Ev.status SaveStatus.saved,
      Ev.uiProgress false] from rfl]
  exact List.cons_ne_nil _ _

/-- C2 (amended): the in-flight guard is checked and set synchronously, so
a second saveStateToFile call arriving at any suspension point of a running
save other than the final progress-dismissal await (that is, at any point
where saveInProgress is still true) returns false immediately, makes no
host call, and leaves the state untouched; only during the final await,
after the guard has been cleared in the finally block, can a second call
start a fresh save. -/
theorem c2_single_save (s : PState) (env env2 : HostEnv) (snap snap2 : JSV)
    (h : s.saveInProgress = false)
    (u : PState) (hu : u ∈ (saveStateToFile s env snap).susp.dropLast) :
    saveStateToFile u env2 snap2 = ⟨some false, u, [], []⟩ :=
  save_guard_true u env2 snap2 ((save_run_facts s env snap h).2.2.2.2.1 u hu).1

/-- C2 witness: the second call rejected at the first suspension point of a
concrete running save. -/
theorem c2_single_save_witness :
    saveStateToFile uA envA JSV.jnull = ⟨some false, uA, [], []⟩ :=
  c2_single_save sA envA envA JSV.jnull JSV.jnull rfl uA (by decide)

/-- C3: a store-change notification arriving at any suspension point of an
in-flight save (where the status is Saving) is a complete no-op, and when
the save completes the status is Saved exactly when the write succeeded and
Unsaved exactly when it failed, determined solely by the save outcome. -/
theorem c3_tracker (s : PState) (env : HostEnv) (snap : JSV)
    (h1 : s.saveInProgress = false) (h2 : s.syncStatusStore.isSome = true) :
    (∀ u ∈ (saveStateToFile s env snap).susp.dropLast, onStoreChange u = (u, [])) ∧
    ((saveStateToFile s env snap).result = some true →
      ((saveStateToFile s env snap).final).saveStatus = SaveStatus.saved) ∧
    ((saveStateToFile s env snap).result = some false →
      ((saveStateToFile s env snap).final).saveStatus = SaveStatus.unsaved) := by
  have hf := save_run_facts s env snap h1
  refine ⟨?_, hf.2.2.1 h2, hf.2.2.2.1 h2⟩
  intro u hu
  have hst := (hf.2.2.2.2.1 u hu).2 h2
  simp [onStoreChange, hst]

/-- C3 witness: the concrete successful save from sA ends with status
Saved. -/
theorem c3_tracker_witness :
    ((saveStateToFile sA envA JSV.jnull).final).saveStatus = SaveStatus.saved :=
  (c3_tracker sA envA JSV.jnull rfl rfl).2.1 rfl

/-- C5: on every exit path of an accepted saveStateToFile call - success,
write failure, or an exception at any step - the in-flight guard is cleared,
and whenever a host binding with a callable progress indicator is present,
the last host call of the run dismisses the progress indicator. -/
theorem c5_cleanup (s : PState) (env : HostEnv) (snap : JSV) (h : s.saveInProgress = false) :
    ((saveStateToFile s env snap).final).saveInProgress = false ∧
    (∀ t0, s.vue = some t0 → t0.hasUiProgress = true →
      (saveStateToFile s env snap).events.getLast? = some (Ev.uiProgress false)) :=
  ⟨(save_run_facts s env snap h).1, (save_run_facts s env snap h).2.1⟩

/-- C5 witness: cleanup facts evaluated on a concrete failing save (the
host write is rejected). -/
theorem c5_cleanup_witness :
    ((saveStateToFile sA { envA with writeOk := false } JSV.jnull).final).saveInProgress
      = false ∧
    (saveStateToFile sA { envA with writeOk := false } JSV.jnull).events.getLast?
      = some (Ev.uiProgress false) :=
  ⟨(c5_cleanup sA { envA with writeOk := false } JSV.jnull rfl).1,
    (c5_cleanup sA { envA with writeOk := false } JSV.jnull rfl).2 teraA rfl rfl⟩

/-- C10: while the sync status store has not been created, every status
transition request is a complete no-op, so getSaveStatus keeps returning
the construction-time value Saved through any save or load attempt made in
that window, including a failed save. -/
theorem c10_status_gate (s : PState) (env : HostEnv) (snap : JSV) (st : SaveStatus) (cfg : Cfg)
    (h : s.syncStatusStore = none) :
    updateSaveStatusE s st = (s, []) ∧
    getSaveStatus ((saveStateToFile s env snap).final) = getSaveStatus s ∧
    getSaveStatus ((loadStateFromFile s env).final) = getSaveStatus s ∧
    getSaveStatus (initState cfg) = SaveStatus.saved := by
  refine ⟨updateSaveStatusE_none s st h, ?_, ?_, rfl⟩
  · by_cases hg : s.saveInProgress = true
    · rw [save_guard_true s env snap hg]
    · rw [Bool.not_eq_true] at hg
      exact (save_run_facts s env snap hg).2.2.2.2.2 h
  · show ((loadStateFromFile s env).final).saveStatus = s.saveStatus
    rw [load_final]
    exact (loadTry_facts s env).2.2 h

/-- C10 witness: a freshly constructed engine (store not yet created, no
host bound, so the save attempt fails) still reports Saved afterwards. -/
theorem c10_status_gate_witness :
    updateSaveStatusE (initState cfgA) SaveStatus.unsaved = (initState cfgA, []) ∧
    getSaveStatus ((saveStateToFile (initState cfgA) envA JSV.jnull).final)
      = getSaveStatus (initState cfgA) ∧
    getSaveStatus (initState cfgA) = SaveStatus.saved :=
  ⟨(c10_status_gate (initState cfgA) envA JSV.jnull SaveStatus.unsaved cfgA rfl).1,
    (c10_status_gate (initState cfgA) envA JSV.jnull SaveStatus.unsaved cfgA rfl).2.1,
    (c10_status_gate (initState cfgA) envA JSV.jnull SaveStatus.unsaved cfgA rfl).2.2.2⟩

/-- C6: after an initialization that reaches its try block (the initial
progress-display await, which sits before the try block, either was not
attempted or resolved) with the status store created, a load that yields
null — file absent, empty or read back as a falsy document — leaves the
status Unsaved, and a load that yields a non-null document leaves the
status Saved. -/
theorem c6_load_status (s : PState) (env : HostEnv) (t0 : Tera)
    (h1 : s.teraReady = true) (h2 : s.vue = some t0) (h3 : env.piniaPresent = true)
    (h4 : t0.hasUiProgress = false ∨ env.uiShowOk = true) :
    ((initPlugin s env).loaded = none →
      ((initPlugin s env).final).saveStatus = SaveStatus.unsaved) ∧
    (∀ d, (initPlugin s env).loaded = some d →
      ((initPlugin s env).final).saveStatus = SaveStatus.saved) :=
  initPlugin_status s env t0 h1 h2 h3 h4

/-- C6 witness: concrete initializations, one loading a document, one
finding an empty file and one reading back a falsy document. -/
theorem c6_load_status_witness :
    ((initPlugin { sA with teraReady := true } envA).final).saveStatus = SaveStatus.saved ∧
    ((initPlugin { sA with teraReady := true }
      { envA with readResult := Except.ok none }).final).saveStatus = SaveStatus.unsaved ∧
    ((initPlugin { sA with teraReady := true }
      { envA with readResult := Except.ok (some JSV.jnull) }).final).saveStatus
      = SaveStatus.unsaved :=
  ⟨(c6_load_status { sA with teraReady := true } envA teraA rfl rfl rfl (Or.inr rfl)).2
      (JSV.jnum 7) rfl,
    (c6_load_status { sA with teraReady := true }
      { envA with readResult := Except.ok none } teraA rfl rfl rfl (Or.inr rfl)).1 rfl,
    (c6_load_status { sA with teraReady := true }
      { envA with readResult := Except.ok (some JSV.jnull) } teraA rfl rfl rfl
      (Or.inr rfl)).1 rfl⟩

/-- C8: claimed, when per-user state is enabled the user-identity lookup is
performed only on the first call and later calls reuse the cached identity.
Counterexample: the cache check uses JS falsiness, so when the host reports
the empty string as user id the first call caches it and the second call
still performs a fresh host lookup (and can even return a different key). -/
theorem c8_counterexample :
    (getStorageKey sB envB0).1 = Except.ok "p-" ∧
    sB1.userId = some "" ∧
    (getStorageKey sB1 envB2).2.2 = [Ev.getUser] ∧
    (getStorageKey sB1 envB2).1 = Except.ok "p-u2" :=
  ⟨rfl, rfl, rfl, rfl⟩

/-- C8 (amended): getStorageKey returns keyPrefix directly with no host
call when per-user state is disabled; when enabled and the identity lookup
yields a non-empty id, the lookup happens only on the first call (later
calls reuse the cached identity with no host call) and the key is
keyPrefix ++ "-" ++ userId; an identity-lookup failure propagates to the
caller unchanged. -/
theorem c8_storage_key (s : PState) (env env2 : HostEnv) :
    (s.cfg.isSeparateStateForEachUser = false →
      getStorageKey s env = (Except.ok s.cfg.keyPref, s, [])) ∧
    (∀ uid, s.cfg.isSeparateStateForEachUser = true → s.vue.isSome = true →
      s.userId = none → env.getUserId = Except.ok uid → uid ≠ "" →
      getStorageKey s env =
        (Except.ok (s.cfg.keyPref ++ "-" ++ uid), { s with userId := some uid }, [Ev.getUser]) ∧
      getStorageKey { s with userId := some uid } env2 =
        (Except.ok (s.cfg.keyPref ++ "-" ++ uid), { s with userId := some uid }, [])) ∧
    (∀ e, s.cfg.isSeparateStateForEachUser = true → s.vue.isSome = true →
      optFalsy s.userId = true → env.getUserId = Except.error e →
      getStorageKey s env = (Except.error e, s, [Ev.getUser])) := by
  refine ⟨?_, ?_, ?_⟩
  · intro hsep
    simp [getStorageKey, hsep]
  · intro uid hsep hvs huid hok hne
    constructor
    · simp [getStorageKey, hsep, hvs, huid, hok, optFalsy]
    · have hfal : optFalsy (some uid) = false := by simp [optFalsy, hne]
      simp [getStorageKey, hsep, hfal, optShow]
  · intro e hsep hvs hfal herr
    simp [getStorageKey, hsep, hvs, hfal, herr]

/-- C8 witness: the amended behaviour evaluated on a concrete per-user
engine with a non-empty identity. -/
theorem c8_storage_key_witness :
    getStorageKey sB envB2 =
      (Except.ok "p-u2", { sB with userId := some "u2" }, [Ev.getUser]) ∧
    getStorageKey { sB with userId := some "u2" } envB0 =
      (Except.ok "p-u2", { sB with userId := some "u2" }, []) :=
  (c8_storage_key sB envB2 envB0).2.1 "u2" rfl rfl rfl rfl (by decide)

/-- C9: claimed, triggering setTeraReady before a valid host binding has
been supplied is a safe no-op that raises no error.  Counterexample: on a
freshly constructed engine (no vue instance bound) setTeraReady rethrows
the validation error "Vue instance is required" to its caller. -/
theorem c9_counterexample :
    setTeraReady (initState cfgA) envA =
      (Except.error "Vue instance is required", initState cfgA, []) := rfl

/-- C9 (amended): setTeraReady validates the host binding first and
rethrows the validation error to its caller, leaving the state untouched
and making no host call; it is the internal initialization routine that is
the safe no-op when invoked before the ready signal or the host binding is
present. -/
theorem c9_ready_guard (s : PState) (env : HostEnv) :
    (∀ e, validateVueInstance s.vue = Except.error e →
      setTeraReady s env = (Except.error e, s, [])) ∧
    (s.teraReady = false ∨ s.vue = none → initPlugin s env = ⟨s, [], none, false⟩) := by
  constructor
  · intro e he
    simp [setTeraReady, he]
  · exact initPlugin_noop s env

/-- C9 witness: the guard behaviour on a fresh engine and on an engine with
a host bound but no ready signal. -/
theorem c9_ready_guard_witness :
    setTeraReady (initState cfgA) envA =
      (Except.error "Vue instance is required", initState cfgA, []) ∧
    initPlugin sA envA = ⟨sA, [], none, false⟩ :=
  ⟨(c9_ready_guard (initState cfgA) envA).1 "Vue instance is required" rfl,
    (c9_ready_guard sA envA).2 (Or.inl rfl)⟩

/-- C4: loadStateFromFile never throws to its caller: every error raised
inside the try block (including the message-pattern-matched "not found"
condition) is caught and yields null, any read failure yields null, a read
that resolves with nothing or with a JS-falsy document (null, false, 0 or
the empty string: the `if (!fileContent)` check) yields null, any returned
document is the truthy content the read resolved with, and a valid (truthy)
document is returned exactly as read. -/
theorem c4_load_never_throws (s : PState) (env : HostEnv) :
    (∀ e, (loadTry s env).1 = Except.error e → (loadStateFromFile s env).result = none) ∧
    (∀ d, (loadStateFromFile s env).result = some d →
      env.readResult = Except.ok (some d) ∧ jsFalsy d = false) ∧
    (∀ msg, env.readResult = Except.error msg → (loadStateFromFile s env).result = none) ∧
    (∀ d, env.readResult = Except.ok (some d) → jsFalsy d = true →
      (loadStateFromFile s env).result = none) ∧
    (∀ t0 fn d, s.vue = some t0 → (getStorageFileName s env).res = Except.ok fn → fn ≠ "" →
      env.readResult = Except.ok (some d) → jsFalsy d = false →
      (loadStateFromFile s env).result = some d) := by
  have hresOk : ∀ v s2 evs2, loadTry s env = (Except.ok v, s2, evs2) →
      (loadStateFromFile s env).result = v := by
    intro v s2 evs2 hT
    simp [loadStateFromFile, hT]
  have hresE : ∀ e s2 evs2, loadTry s env = (Except.error e, s2, evs2) →
      (loadStateFromFile s env).result = none := by
    intro e s2 evs2 hT
    simp only [loadStateFromFile, hT]
    split <;> rfl
  rcases hE : getStorageFileName s env with ⟨res, s1, evs, susp⟩
  have htry : (loadTry s env).1 = Except.ok none ∨ (∃ e, (loadTry s env).1 = Except.error e) ∨
      (∃ d, (loadTry s env).1 = Except.ok (some d) ∧ env.readResult = Except.ok (some d) ∧
        jsFalsy d = false) := by
    cases res with
    | error e =>
      right; left
      exact ⟨e, by simp [loadTry, hE]⟩
    | ok fn =>
      by_cases hfn : fn = ""
      · left
        simp only [loadTry, hE]
        rw [if_pos hfn]
      · cases hv1 : s1.vue with
        | none =>
          right; left
          refine ⟨"Vue instance is null", ?_⟩
          simp only [loadTry, hE, hv1]
          rw [if_neg hfn]
        | some t1 =>
          cases hr : env.readResult with
          | error msg =>
            right; left
            refine ⟨msg, ?_⟩
            simp only [loadTry, hE, hv1, hr]
            rw [if_neg hfn]
          | ok c =>
            cases c with
            | none =>
              left
              simp only [loadTry, hE, hv1, hr]
              rw [if_neg hfn]
            | some d =>
              by_cases hfd : jsFalsy d = true
              · left
                simp only [loadTry, hE, hv1, hr]
                rw [if_neg hfn, if_pos hfd]
              · right; right
                refine ⟨d, ?_, rfl, by simpa using hfd⟩
                simp only [loadTry, hE, hv1, hr]
                rw [if_neg hfn, if_neg hfd]
  refine ⟨?_, ?_, ?_, ?_, ?_⟩
  · intro e he
    rcases hT : loadTry s env with ⟨r, s2, evs2⟩
    rw [hT] at he
    simp only [] at he
    subst he
    exact hresE e s2 evs2 hT
  · intro d hd
    rcases htry with hx | ⟨e, hx⟩ | ⟨d2, hx, hr, hfd⟩ <;>
      rcases hT : loadTry s env with ⟨r, s2, evs2⟩ <;> rw [hT] at hx <;> simp only [] at hx <;>
      subst hx
    · rw [hresOk none s2 evs2 hT] at hd
      cases hd
    · rw [hresE e s2 evs2 hT] at hd
      cases hd
    · rw [hresOk (some d2) s2 evs2 hT] at hd
      cases Option.some.inj hd
      exact ⟨hr, hfd⟩
  · intro msg hmsg
    rcases htry with hx | ⟨e, hx⟩ | ⟨d2, hx, hr, hfd⟩ <;>
      rcases hT : loadTry s env with ⟨r, s2, evs2⟩ <;> rw [hT] at hx <;> simp only [] at hx <;>
      subst hx
    · exact hresOk none s2 evs2 hT
    · exact hresE e s2 evs2 hT
    · rw [hmsg] at hr
      cases hr
  · intro d hrd hfd
    rcases htry with hx | ⟨e, hx⟩ | ⟨d2, hx, hr, hfd2⟩ <;>
      rcases hT : loadTry s env with ⟨r, s2, evs2⟩ <;> rw [hT] at hx <;> simp only [] at hx <;>
      subst hx
    · exact hresOk none s2 evs2 hT
    · exact hresE e s2 evs2 hT
    · rw [hrd] at hr
      cases Option.some.inj (Except.ok.inj hr)
      rw [hfd] at hfd2
      simp at hfd2
  · intro t0 fn d hvs hok hfn hr hfd
    simp only [] at hok
    subst hok
    have hvue := getStorageFileName_vue s env t0 hvs
    rw [hE] at hvue
    simp only [] at hvue
    obtain ⟨t1, hv1⟩ := Option.isSome_iff_exists.mp hvue
    rcases hT : loadTry s env with ⟨r, s2, evs2⟩
    have hr1 : (loadTry s env).1 = Except.ok (some d) := by
      simp only [loadTry, hE, hv1, hr]
      rw [if_neg hfn, if_neg (by simp [hfd])]
    rw [hT] at hr1
    simp only [] at hr1
    subst hr1
    exact hresOk (some d) s2 evs2 hT

/-- C4 witness: a concrete load through a fully capable host returning a
document yields exactly that document, concrete failing reads yield null,
and a read resolving with the falsy document 0 yields null. -/
theorem c4_load_never_throws_witness :
    (loadStateFromFile sA envA).result = some (JSV.jnum 7) ∧
    (loadStateFromFile sA { envA with readResult := Except.error "file not found" }).result
      = none ∧
    (loadStateFromFile sA { envA with readResult := Except.error "boom" }).result = none ∧
    (loadStateFromFile sA { envA with readResult := Except.ok (some (JSV.jnum 0)) }).result
      = none :=
  ⟨(c4_load_never_throws sA envA).2.2.2.2 teraA "proj/f.json" (JSV.jnum 7) rfl rfl
      (by decide) rfl rfl,
    (c4_load_never_throws sA { envA with readResult := Except.error "file not found" }).2.2.1
      "file not found" rfl,
    (c4_load_never_throws sA { envA with readResult := Except.error "boom" }).2.2.1
      "boom" rfl,
    (c4_load_never_throws sA { envA with readResult := Except.ok (some (JSV.jnum 0)) }).2.2.2.1
      (JSV.jnum 0) rfl rfl⟩

lemma strcat_ne_empty (x y : String) (h : x ≠ "") : x ++ y ≠ "" := by
  intro hcon
  have hlen := congrArg String.length hcon
  rw [String.length_append, show ("" : String).length = 0 from rfl] at hlen
  apply h
  have hx : x.length = 0 := by omega
  cases x with
  | mk dat =>
    cases dat with
    | nil => rfl
    | cons c cs => simp [String.length] at hx

/-- C7: calling getStorageFileName twice with the same storage key (here a
deterministic shared key) and unchanged project metadata returns the
identical project/file locator both times, the second call performs no
createProjectFile host call, and across both calls the backing file is
created at most once. -/
theorem c7_locator (s : PState) (env1 env2 : HostEnv) (t0 : Tera) (p : Project) (pid : String)
    (hsep : s.cfg.isSeparateStateForEachUser = false)
    (hv : s.vue = some t0) (hp : t0.project = some p)
    (hid : p.id = some pid) (hpid : pid ≠ "")
    (hc : t0.hasCreateProjectFile = true) (hsps : t0.hasSetProjectState = true)
    (hlk : ∀ tv, lookupTemp (p.temp.getD []) s.cfg.keyPref = some tv →
      ∃ nm, tv = TVal.tstr nm) :
    ∃ path,
      (getStorageFileName s env1).res = Except.ok path ∧
      (getStorageFileName ((getStorageFileName s env1).final) env2).res = Except.ok path ∧
      countCreates ((getStorageFileName ((getStorageFileName s env1).final) env2).events) = 0 ∧
      countCreates ((getStorageFileName s env1).events) +
        countCreates ((getStorageFileName ((getStorageFileName s env1).final) env2).events)
        ≤ 1 := by
  have hkey : ∀ (s2 : PState) (env : HostEnv), s2.cfg = s.cfg →
      getStorageKey s2 env = (Except.ok s.cfg.keyPref, s2, []) := by
    intro s2 env h2
    simp [getStorageKey, h2, hsep]
  have hcneg : ¬ (t0.hasCreateProjectFile = false) := by simp [hc]
  have hspsneg : ¬ (t0.hasSetProjectState = false) := by simp [hsps]
  have hname : ∀ x : String, ("data-" ++ s.cfg.keyPref ++ "-" ++ x ++ ".json") ≠ "" :=
    fun x => strcat_ne_empty _ _ (strcat_ne_empty _ _ (strcat_ne_empty _ _
      (dataName_ne s.cfg.keyPref)))
  rcases hL : lookupTemp (p.temp.getD []) s.cfg.keyPref with _ | tv
  · refine ⟨pid ++ "/" ++ ("data-" ++ s.cfg.keyPref ++ "-" ++ env1.nanoid ++ ".json"),
      ?_, ?_, ?_, ?_⟩ <;>
      simp [getStorageFileName, createStorageFile, updateTempInState, setVueProject,
        hv, hp, hid, if_neg hpid, hkey, hL, lookupTemp_set, if_neg hcneg, if_neg hspsneg,
        if_neg (hname env1.nanoid), countCreates]
  · obtain ⟨nm, hnm⟩ := hlk tv hL
    subst hnm
    by_cases hne : nm = ""
    · subst hne
      refine ⟨pid ++ "/" ++ ("data-" ++ s.cfg.keyPref ++ "-" ++ env1.nanoid ++ ".json"),
        ?_, ?_, ?_, ?_⟩ <;>
        simp [getStorageFileName, createStorageFile, updateTempInState, setVueProject,
          hv, hp, hid, if_neg hpid, hkey, hL, lookupTemp_set, if_neg hcneg, if_neg hspsneg,
          if_neg (hname env1.nanoid), countCreates]
    · refine ⟨pid ++ "/" ++ nm, ?_, ?_, ?_, ?_⟩ <;>
        simp [getStorageFileName, createStorageFile, updateTempInState, setVueProject,
          hv, hp, hid, if_neg hpid, hkey, hL, lookupTemp_set, if_neg hne, countCreates]

/-- C7 witness: a fresh project provisions its backing file on the first
call and reuses the identical locator with no further creation on the
second. -/
theorem c7_locator_witness :
    (getStorageFileName sFresh envA).res = Except.ok ("proj/" ++ ("data-p-X.json")) ∧
    (getStorageFileName ((getStorageFileName sFresh envA).final) envA).res
      = Except.ok ("proj/" ++ ("data-p-X.json")) := by
  obtain ⟨path, h1, h2, h3, h4⟩ :=
    c7_locator sFresh envA envA teraFresh ⟨some "proj", some []⟩ "proj"
      rfl rfl rfl rfl (by decide) rfl rfl
      (by intro tv htv; simp [lookupTemp] at htv)
  have hpath : path = "proj/" ++ ("data-p-X.json") := by
    have := h1
    rw [show (getStorageFileName sFresh envA).res
      = Except.ok ("proj/" ++ ("data-p-X.json")) from rfl] at this
    exact (Except.ok.inj this).symm
  rw [← hpath]
  exact ⟨h1, h2⟩
